import Mathlib

/-!
Shallow embedding of `src/main.ts` of D3-World-of-Bits (the D3.d version:
movement controllers, persistent cells, localStorage snapshots).

Modelling conventions:
* JavaScript numbers are IEEE-754 binary64 values; every such value is a
  rational, so doubles are modelled as the exactly-representable subset of
  `ℚ`, with `round64 : ℚ → ℚ` the binary64 rounding function (round to
  nearest, ties to even, 53 significand bits; the exponent is unbounded,
  which is faithful here because no value this program computes comes near
  overflow or subnormals) and `fadd`/`fsub`/`fmul`/`fdiv` the correctly
  rounded double operations.  The numeric literals of the source
  (`36.997936938057016`, `-122.05703507501151`, `1e-4`, `0.1`) are the
  doubles nearest those decimals, i.e. `round64` of the exact decimal.
  Comparisons (`min`, `<`) on doubles are exact and need no rounding.
* The external sources of nondeterminism — the deterministic hash `luck`,
  `Math.random()` and `Date.now()` — are an environment `Env` of oracle
  functions; successive calls to `Math.random()` / `Date.now()` read
  successive indices tracked by counters (`randCtr`, `timeCtr`) in the
  game state.
* A JavaScript `Map` is modelled as an association list with the same
  observable behaviour: `set` replaces a present key in place (keeping its
  position) and otherwise appends; `get` returns the first (unique) match;
  `clear` gives the empty list.  Cell keys, written `"${i},${j}"` in the
  source, are modelled as the pair `(i, j)` — the string form is in
  bijection with the pair, since the decimal rendering of the two integers
  separated by a comma is injective.
* Leaflet rectangles (presentation handles) are modelled as `Nat` handles
  drawn from a fresh counter `rectCtr`; the leaflet map's layer set is the
  list `mapLayers`.  DOM-only functions (`updateInventory`,
  `updateMovementUI`, popups, `alert`, `console.log`) do not touch the
  modelled state and are omitted.
-/

namespace WorldOfBits

/-- A grid-cell key: the pair `(i, j)` standing for the source's string key
`"${i},${j}"` (`getCellKey`). -/
abbrev CellKey := Int × Int

/-- A world coordinate (`leaflet.LatLng`), with exact rational components. -/
structure LatLng where
  lat : ℚ
  lng : ℚ
deriving DecidableEq, Repr

/-- `leaflet.LatLngBounds`: leaflet normalises the two given corners into a
south-west (componentwise minimum) and north-east (componentwise maximum)
corner. -/
structure LatLngBounds where
  low : LatLng
  high : LatLng
deriving DecidableEq, Repr

/-- `leaflet.latLngBounds` on two corner points. -/
def latLngBounds (a b : LatLng) : LatLngBounds :=
  { low := ⟨min a.lat b.lat, min a.lng b.lng⟩
  , high := ⟨max a.lat b.lat, max a.lng b.lng⟩ }

/-- The `Token` record of the source: `{id, value, i, j, rect?}`.  `rect` is
the optional presentation handle attached by `spawnToken`. -/
structure Token where
  id : String
  value : Int
  i : Int
  j : Int
  rect : Option Nat
deriving DecidableEq, Repr

/-- The source's `GridCell` interface `{i, j}`. -/
structure GridCell where
  i : Int
  j : Int
deriving DecidableEq, Repr

/-- The `CellState` memento stored in `persistentCells`:
`{hasBeenModified, baseTokens}`.  `saveCellState` copies each token with an
object spread, which copies every field (including `rect`), so `baseTokens`
holds full `Token` records. -/
structure CellState where
  hasBeenModified : Bool
  baseTokens : List Token
deriving DecidableEq, Repr

/-- An entry of the `activeCells` map: `{tokens, visualElements}`. -/
structure ActiveCell where
  tokens : List Token
  visualElements : List Nat
deriving DecidableEq, Repr

/-- The `visibleBounds` record `{iMin, iMax, jMin, jMax}`. -/
structure Bounds where
  iMin : Int
  iMax : Int
  jMin : Int
  jMax : Int
deriving DecidableEq, Repr

/-- The two movement modes (`currentMovementType`). -/
inductive MovementType where
  | buttons
  | geolocation
deriving DecidableEq, Repr

/-- The active movement controller (facade):
`ButtonMovementController` always has a position;
`GeolocationMovementController.currentPosition` may be `null`. -/
inductive Controller where
  | buttonCtrl (pos : LatLng)
  | geoCtrl (pos : Option LatLng)
deriving DecidableEq, Repr

/-- `movementController.getCurrentPosition()`. -/
def Controller.getCurrentPosition : Controller → Option LatLng
  | Controller.buttonCtrl p => some p
  | Controller.geoCtrl p => p

/-- The serialized `GameState` record written to `localStorage`
(`persistentCells` entry list, player position, held token with its `rect`
dropped, movement type). -/
structure Snapshot where
  persistentCells : List (CellKey × CellState)
  playerPosition : LatLng
  heldToken : Option Token
  movementType : MovementType
deriving DecidableEq, Repr

/-- The contents of the `localStorage` slot `"tokenGameState"`.
`absent`: no value stored.  `notJson`: a stored string that is not valid
JSON, so `JSON.parse` throws and `GameStorage.loadGameState` returns `null`
from its `catch`.  `notSnapshot`: a stored string that parses as JSON but is
not a `GameState` record (e.g. `"{}"`) — `JSON.parse` succeeds, the truthy
value is returned, and `loadGameState`'s later field accesses hit
`undefined`.  `snap g`: a well-formed serialized game state. -/
inductive Stored where
  | absent
  | notJson
  | notSnapshot
  | snap (g : Snapshot)
deriving DecidableEq, Repr

/-- The whole mutable state of the program. -/
structure GameState where
  heldToken : Option Token
  persistentCells : List (CellKey × CellState)
  activeCells : List (CellKey × ActiveCell)
  visibleBounds : Bounds
  controller : Controller
  currentMovementType : MovementType
  mapLayers : List Nat
  rectCtr : Nat
  randCtr : Nat
  timeCtr : Nat
  storage : Stored
deriving DecidableEq, Repr

/-- The external oracles: `hash c` is `luck([i, j].toString())` for cell
`c = (i, j)` (deterministic per key); `rand n` is the `n`-th call of
`Math.random()`; `now n` is the `n`-th call of `Date.now()`. -/
structure Env where
  hash : CellKey → ℚ
  rand : Nat → ℚ
  now : Nat → Nat

/-- JS `Map.get`: first (unique) binding of the key. -/
def mget {β : Type} (m : List (CellKey × β)) (k : CellKey) : Option β :=
  match m with
  | [] => none
  | (k', v) :: rest => if k' = k then some v else mget rest k

/-- JS `Map.set`: replace a present key in place, otherwise append. -/
def mset {β : Type} (m : List (CellKey × β)) (k : CellKey) (v : β) :
    List (CellKey × β) :=
  match m with
  | [] => [(k, v)]
  | (k', v') :: rest =>
    if k' = k then (k, v) :: rest else (k', v') :: mset rest k v

/-- The keys of a map, in insertion order. -/
def mkeys {β : Type} (m : List (CellKey × β)) : List CellKey :=
  m.map Prod.fst

/-! ### IEEE-754 binary64 arithmetic

The source computes coordinates with JavaScript numbers (binary64).  A
binary64 value is a rational `m * 2 ^ e` with `|m| < 2 ^ 53`; arithmetic
rounds the exact result to the nearest such value, ties to even. -/

/-- Round a rational to the nearest integer, ties to even.  (This is the
IEEE-754 default rounding applied after the value has been scaled so that
its units digit is the last significand bit.) -/
def roundNearestEven (m : ℚ) : Int :=
  let f := ⌊m⌋
  if m - f < 1 / 2 then f
  else if 1 / 2 < m - f then f + 1
  else if f % 2 = 0 then f else f + 1

/-- Round a rational to the nearest binary64 value (round to nearest, ties
to even, 53 significand bits, unbounded exponent).  `Int.log 2 |q|` is the
exponent of the leading binary digit of `q`, so `q / 2 ^ e` scales `q` to
an integer significand position. -/
def round64 (q : ℚ) : ℚ :=
  if q = 0 then 0
  else
    let e : Int := Int.log 2 |q| - 52
    (roundNearestEven (q / 2 ^ e) : ℚ) * 2 ^ e

/-- Binary64 addition: the exact sum, correctly rounded. -/
def fadd (a b : ℚ) : ℚ := round64 (a + b)

/-- Binary64 subtraction: the exact difference, correctly rounded. -/
def fsub (a b : ℚ) : ℚ := round64 (a - b)

/-- Binary64 multiplication: the exact product, correctly rounded. -/
def fmul (a b : ℚ) : ℚ := round64 (a * b)

/-- Binary64 division: the exact quotient, correctly rounded. -/
def fdiv (a b : ℚ) : ℚ := round64 (a / b)

@[simp] theorem round64_zero : round64 0 = 0 := by
  unfold round64
  simp

theorem roundNearestEven_eq_down (m : ℚ) (f : Int) (hf : ⌊m⌋ = f)
    (hr : m - f < 1 / 2) : roundNearestEven m = f := by
  unfold roundNearestEven
  rw [hf, if_pos hr]

theorem roundNearestEven_eq_up (m : ℚ) (f : Int) (hf : ⌊m⌋ = f)
    (hr : 1 / 2 < m - f) : roundNearestEven m = f + 1 := by
  unfold roundNearestEven
  rw [hf, if_neg (not_lt.mpr (le_of_lt hr)), if_pos hr]

/-- Evaluation principle for `round64`: if `q` lies in the binade
`[2 ^ (e + 52), 2 ^ (e + 53))` (so its last significand bit has weight
`2 ^ e`) and the scaled value rounds to the integer `m`, then
`round64 q = m * 2 ^ e`. -/
theorem round64_eq_of (q : ℚ) (e m : Int)
    (h1 : (2 : ℚ) ^ (e + 52) ≤ |q|) (h2 : |q| < (2 : ℚ) ^ (e + 53))
    (hm : roundNearestEven (q / 2 ^ e) = m) :
    round64 q = (m : ℚ) * 2 ^ e := by
  have hcast : ((2 : ℕ) : ℚ) = (2 : ℚ) := by norm_num
  have hq0 : (0 : ℚ) < |q| := lt_of_lt_of_le (by positivity) h1
  have hq : q ≠ 0 := by
    intro h
    rw [h, abs_zero] at hq0
    exact lt_irrefl 0 hq0
  have h1' : ((2 : ℕ) : ℚ) ^ (e + 52) ≤ |q| := by rw [hcast]; exact h1
  have h2' : |q| < ((2 : ℕ) : ℚ) ^ (e + 53) := by rw [hcast]; exact h2
  have h0 : (0 : ℚ) < ((2 : ℕ) : ℚ) ^ (e + 52) := by rw [hcast]; positivity
  have hmono : Int.log 2 (((2 : ℕ) : ℚ) ^ (e + 52)) ≤ Int.log 2 |q| :=
    Int.log_mono_right h0 h1'
  have hle : e + 52 ≤ Int.log 2 |q| := by
    rwa [Int.log_zpow (by norm_num) (e + 52)] at hmono
  have hlt : Int.log 2 |q| < e + 53 :=
    (Int.lt_zpow_iff_log_lt (by norm_num) hq0).mp h2'
  have hlog : Int.log 2 |q| - 52 = e := by omega
  unfold round64
  rw [if_neg hq]
  simp only [hlog, hm]

-- Tunable gameplay parameters and the classroom origin, as binary64 values.

/-- `CLASSROOM_LATLNG = leaflet.latLng(36.997936938057016, -122.05703507501151)`:
the binary64 values nearest the source's decimal literals. -/
def CLASSROOM_LATLNG : LatLng :=
  ⟨round64 ((36997936938057016 : ℚ) / 10 ^ 15),
   round64 (-((12205703507501151 : ℚ) / 10 ^ 14))⟩

/-- `TILE_DEGREES = 1e-4`: the binary64 value nearest `10⁻⁴`. -/
def TILE_DEGREES : ℚ := round64 (1 / 10 ^ 4)

/-- `VISIBLE_RADIUS = 25` (exact in binary64). -/
def VISIBLE_RADIUS : Int := 25

/-- `CACHE_SPAWN_PROBABILITY = 0.1`: the binary64 value nearest `1/10`. -/
def CACHE_SPAWN_PROBABILITY : ℚ := round64 (1 / 10)

/-- `convertLatLong`: world coordinates to grid coordinates by flooring the
offset from the origin divided by the tile size, per axis, with the
subtraction and division performed in binary64 as the source does.
(`Math.floor` of an integer-valued double is exact at these magnitudes, so
the floor itself needs no rounding.) -/
def convertLatLong (lat lng : ℚ) : GridCell :=
  { i := ⌊fdiv (fsub lat CLASSROOM_LATLNG.lat) TILE_DEGREES⌋
  , j := ⌊fdiv (fsub lng CLASSROOM_LATLNG.lng) TILE_DEGREES⌋ }

/-- `createBoundary`: the world-space bounding box of a cell, each corner
computed with binary64 multiply and add as the source does.  Grid indices
are integer-valued doubles, so the cast `(cell.i : ℚ)` is exact. -/
def createBoundary (cell : GridCell) : LatLngBounds :=
  latLngBounds
    ⟨fadd CLASSROOM_LATLNG.lat (fmul (cell.i : ℚ) TILE_DEGREES),
     fadd CLASSROOM_LATLNG.lng (fmul (cell.j : ℚ) TILE_DEGREES)⟩
    ⟨fadd CLASSROOM_LATLNG.lat (fmul (fadd (cell.i : ℚ) 1) TILE_DEGREES),
     fadd CLASSROOM_LATLNG.lng (fmul (fadd (cell.j : ℚ) 1) TILE_DEGREES)⟩

/-- `getCellKey`: the source renders `"${i},${j}"`; modelled as the pair. -/
def getCellKey (cell : GridCell) : CellKey := (cell.i, cell.j)

/-- The token id string `"${i},${j}-${t}"` built at a `Date.now()` sample `t`. -/
def mkTokenId (i j : Int) (t : Nat) : String :=
  toString i ++ "," ++ toString j ++ "-" ++ toString t

/-- `createToken(i, j)`: draws `Math.random()` for the value (`2` below one
half, else `4`) and `Date.now()` for the id, consuming one sample of each
stream. -/
def createToken (env : Env) (s : GameState) (i j : Int) : Token × GameState :=
  let value : Int := if env.rand s.randCtr < 1 / 2 then 2 else 4
  let t : Token :=
    { id := mkTokenId i j (env.now s.timeCtr), value := value, i := i, j := j
    , rect := none }
  (t, { s with randCtr := s.randCtr + 1, timeCtr := s.timeCtr + 1 })

/-- MEMENTO `saveCellState`: record `{hasBeenModified: true, baseTokens}`
for the key, where each token is copied by an object spread (which copies
every field). -/
def saveCellState (m : List (CellKey × CellState)) (cellKey : CellKey)
    (tokens : List Token) : List (CellKey × CellState) :=
  mset m cellKey
    { hasBeenModified := true, baseTokens := tokens.map (fun t => t) }

/-- MEMENTO `loadCellState`: spread-copies of the stored tokens, or the
empty list when no entry exists.  The source only reads `persistentCells`
here; no entry is ever created by a load. -/
def loadCellState (m : List (CellKey × CellState)) (cellKey : CellKey) :
    List Token :=
  match mget m cellKey with
  | none => []
  | some state => state.baseTokens.map (fun t => t)

/-- MEMENTO `cellModified`: the key is present and its entry says
`hasBeenModified`. -/
def cellModified (m : List (CellKey × CellState)) (cellKey : CellKey) :
    Bool :=
  match mget m cellKey with
  | none => false
  | some state => state.hasBeenModified

/-- `spawnToken(token, isPlayerModified)`: creates a leaflet rectangle
(a fresh handle from `rectCtr`), adds it to the map, stores it in
`token.rect`, and registers token and rectangle in the `activeCells` entry
of the token's cell (creating an empty entry first if none exists).  The
`isPlayerModified` flag only picks the rectangle's colour and the popup is
presentation-only, so neither touches the modelled state. -/
def spawnToken (s : GameState) (token : Token) (isPlayerModified : Bool) :
    GameState :=
  let h := s.rectCtr
  let token1 := { token with rect := some h }
  let s1 := { s with rectCtr := s.rectCtr + 1, mapLayers := s.mapLayers ++ [h] }
  let cellKey := getCellKey { i := token.i, j := token.j }
  let s2 :=
    if (mget s1.activeCells cellKey).isSome then s1
    else { s1 with activeCells := mset s1.activeCells cellKey ⟨[], []⟩ }
  match mget s2.activeCells cellKey with
  | some cellData =>
    let cellData1 : ActiveCell :=
      ⟨cellData.tokens ++ [token1], cellData.visualElements ++ [h]⟩
    { s2 with activeCells := mset s2.activeCells cellKey cellData1 }
  | none => s2

/-- `saveGameState`: capture the whole session into the durable slot
(`GameStorage.saveGameState`): override entries, player position (falling
back to the classroom when the controller has none), the held token with
its `rect` field dropped by the explicit field list, and the movement type. -/
def saveGameState (s : GameState) : GameState :=
  let snapshot : Snapshot :=
    { persistentCells := s.persistentCells
    , playerPosition := (s.controller.getCurrentPosition).getD CLASSROOM_LATLNG
    , heldToken := s.heldToken.map (fun t =>
        { id := t.id, value := t.value, i := t.i, j := t.j, rect := none })
    , movementType := s.currentMovementType }
  { s with storage := Stored.snap snapshot }

/-- `handleTokenPickup(token)`: if the token's cell is active, remove the
token (by id) and its rectangle from the cell and the map after it, and save
the reduced token list to the override store; then hold the token and
persist the game state (`updateInventory` is DOM-only). -/
def handleTokenPickup (s : GameState) (token : Token) : GameState :=
  let cellKey := getCellKey { i := token.i, j := token.j }
  let s1 :=
    match mget s.activeCells cellKey with
    | some cellData =>
      let tokens1 := cellData.tokens.filter (fun (t : Token) => t.id ≠ token.id)
      let s' :=
        match token.rect with
        | some r =>
          let cellData1 : ActiveCell :=
            ⟨tokens1, cellData.visualElements.filter (fun h => h ≠ r)⟩
          { s with mapLayers := s.mapLayers.erase r
                 , activeCells := mset s.activeCells cellKey cellData1 }
        | none =>
          let cellData1 : ActiveCell := ⟨tokens1, cellData.visualElements⟩
          { s with activeCells := mset s.activeCells cellKey cellData1 }
      { s' with persistentCells := saveCellState s'.persistentCells cellKey tokens1 }
    | none => s
  saveGameState { s1 with heldToken := some token }

/-- The restore arm of the rebuild loop body: spawn each saved token with
its coordinates forced to the cell and a fresh `"${i},${j}-${Date.now()}"`
id. -/
def restoreTokens (env : Env) (c : CellKey) (savedTokens : List Token)
    (s : GameState) : GameState :=
  savedTokens.foldl
    (fun acc token =>
      let freshToken :=
        { token with
          i := c.1,
          j := c.2,
          id := mkTokenId c.1 c.2 (env.now acc.timeCtr) }
      spawnToken { acc with timeCtr := acc.timeCtr + 1 } freshToken true)
    s

/-- The body of the nested loops of `updateVisibleCells` for one window cell
`(i, j)`: place an empty `activeCells` entry, then either restore the
memento (modified cell) or ask the generator (`luck` against
`CACHE_SPAWN_PROBABILITY`) for at most one fresh token. -/
def processCell (env : Env) (s : GameState) (c : CellKey) : GameState :=
  let cellKey := c
  let s1 := { s with activeCells := mset s.activeCells cellKey ⟨[], []⟩ }
  if cellModified s1.persistentCells cellKey then
    restoreTokens env c (loadCellState s1.persistentCells cellKey) s1
  else
    if env.hash c < CACHE_SPAWN_PROBABILITY then
      let (t, s2) := createToken env s1 c.1 c.2
      spawnToken s2 t false
    else s1

/-- One axis of the window: the integers from `lo` to `hi` inclusive. -/
def intRange (lo hi : Int) : List Int :=
  (List.range (hi + 1 - lo).toNat).map (fun (n : Nat) => lo + (n : Int))

/-- The window cells in the order of the nested `for` loops (row-major). -/
def windowCells (b : Bounds) : List CellKey :=
  (intRange b.iMin b.iMax).flatMap
    (fun i => (intRange b.jMin b.jMax).map (fun j => (i, j)))

/-- `updateVisibleCells`: read the controller position (return unchanged on
`null`), compute the window around the player's grid cell, remove every
active rectangle from the map, clear `activeCells`, rebuild every window
cell with `processCell`, and record the new bounds. -/
def updateVisibleCells (env : Env) (s : GameState) : GameState :=
  match s.controller.getCurrentPosition with
  | none => s
  | some position =>
    let centerCell := convertLatLong position.lat position.lng
    let newBounds : Bounds :=
      { iMin := centerCell.i - VISIBLE_RADIUS,
        iMax := centerCell.i + VISIBLE_RADIUS,
        jMin := centerCell.j - VISIBLE_RADIUS,
        jMax := centerCell.j + VISIBLE_RADIUS }
    let allRects := s.activeCells.foldl (fun acc kv => acc ++ kv.2.visualElements) []
    let s1 :=
      { s with
        mapLayers := allRects.foldl (fun m h => m.erase h) s.mapLayers,
        activeCells := [] }
    let s2 := (windowCells newBounds).foldl (processCell env) s1
    { s2 with visibleBounds := newBounds }

/-- `dropToken`: nothing happens without a held token or a position;
otherwise the held token is re-identified at the player's cell, spawned
there, the cell's (now extended) token list is saved to the override store,
the held slot is cleared and the game state persisted. -/
def dropToken (env : Env) (s : GameState) : GameState :=
  match s.heldToken with
  | none => s
  | some held =>
    match s.controller.getCurrentPosition with
    | none => s
    | some position =>
      let playerCell := convertLatLong position.lat position.lng
      let droppedToken : Token :=
        { held with
          i := playerCell.i,
          j := playerCell.j,
          id := mkTokenId playerCell.i playerCell.j (env.now s.timeCtr) }
      let s1 := { s with timeCtr := s.timeCtr + 1 }
      let cellKey := getCellKey playerCell
      let s2 := spawnToken s1 droppedToken true
      let s3 :=
        match mget s2.activeCells cellKey with
        | some cellData =>
          { s2 with persistentCells :=
              saveCellState s2.persistentCells cellKey cellData.tokens }
        | none => s2
      saveGameState { s3 with heldToken := none }

/-- `combineTokens(target)`: a no-op unless a token is held and its value
matches the target's; otherwise remove the target (by id) and its rectangle
from its cell, spawn a token of doubled value with the target's coordinates
(the object spread keeps them) there, save the cell's token list to the
override store, clear the held slot and persist.  The win `alert` is
presentation-only.  The `activeCells.get(cellKey)!` non-null assertion after
`spawnToken` always holds because `spawnToken` registers the key; the
unreachable arm returns the state unchanged. -/
def combineTokens (env : Env) (s : GameState) (target : Token) : GameState :=
  match s.heldToken with
  | none => s
  | some held =>
    if held.value ≠ target.value then s
    else
      let combinedValue := target.value * 2
      let cellKey := getCellKey { i := target.i, j := target.j }
      let s1 :=
        match mget s.activeCells cellKey with
        | some cellData =>
          let tokens1 := cellData.tokens.filter (fun (t : Token) => t.id ≠ target.id)
          match target.rect with
          | some r =>
            let cellData1 : ActiveCell :=
              ⟨tokens1, cellData.visualElements.filter (fun h => h ≠ r)⟩
            { s with mapLayers := s.mapLayers.erase r,
                     activeCells := mset s.activeCells cellKey cellData1 }
          | none =>
            let cellData1 : ActiveCell := ⟨tokens1, cellData.visualElements⟩
            { s with activeCells := mset s.activeCells cellKey cellData1 }
        | none => s
      let combinedToken : Token :=
        { target with
          value := combinedValue,
          id := mkTokenId target.i target.j (env.now s1.timeCtr) }
      let s2 := { s1 with timeCtr := s1.timeCtr + 1 }
      let s3 := spawnToken s2 combinedToken true
      let s4 :=
        match mget s3.activeCells cellKey with
        | some cellData =>
          { s3 with persistentCells :=
              saveCellState s3.persistentCells cellKey cellData.tokens }
        | none => s3
      saveGameState { s4 with heldToken := none }

/-- `loadGameState`: `Except.ok (s', returned)` models a normal return,
`Except.error s'` models an uncaught exception thrown with the state already
mutated to `s'`.  `GameStorage.loadGameState` returns `null` when the slot
is absent or `JSON.parse` throws (caught), so `loadGameState` returns
`false` unchanged.  A stored value that parses as JSON but is not a
`GameState` record (modelled by `Stored.notSnapshot`, e.g. the string
`"{}"`) passes the `if (!savedState)` truthiness guard, so
`persistentCells.clear()` runs and then
`savedState.persistentCells.forEach` throws a `TypeError` on `undefined`.
A well-formed snapshot is restored: override entries are re-inserted into
the cleared map, the position is pushed into a button controller (a
geolocation controller has no setter), held token and movement type are
replaced, and the window is rebuilt. -/
def loadGameState (env : Env) (s : GameState) :
    Except GameState (GameState × Bool) :=
  match s.storage with
  | Stored.absent => Except.ok (s, false)
  | Stored.notJson => Except.ok (s, false)
  | Stored.notSnapshot => Except.error { s with persistentCells := [] }
  | Stored.snap g =>
    let restoredCells := g.persistentCells.foldl (fun m kv => mset m kv.1 kv.2) []
    let s1 := { s with persistentCells := restoredCells }
    let s2 :=
      match s1.controller with
      | Controller.buttonCtrl _ =>
        { s1 with controller := Controller.buttonCtrl g.playerPosition }
      | Controller.geoCtrl _ => s1
    let s3 :=
      { s2 with
        heldToken := g.heldToken,
        currentMovementType := g.movementType }
    Except.ok (updateVisibleCells env s3, true)

/-- `startNewGame`: behind the `confirm` dialog (the `confirmed` argument),
clear the override store and the held slot, reset a button controller's
position to the classroom (a geolocation controller has no setter; only the
marker and the view, both presentation, are moved), clear the durable slot,
and rebuild the window. -/
def startNewGame (env : Env) (s : GameState) (confirmed : Bool) : GameState :=
  if confirmed then
    let s1 := { s with persistentCells := [], heldToken := none }
    let s2 :=
      match s1.controller with
      | Controller.buttonCtrl _ =>
        { s1 with controller := Controller.buttonCtrl CLASSROOM_LATLNG }
      | Controller.geoCtrl _ => s1
    let s3 := { s2 with storage := Stored.absent }
    updateVisibleCells env s3
  else s

/-! ### Association-list map lemmas -/

theorem mget_mset_self {β : Type} (m : List (CellKey × β)) (k : CellKey) (v : β) :
    mget (mset m k v) k = some v := by
  induction m with
  | nil => simp [mset, mget]
  | cons hd tl ih =>
    obtain ⟨k', v'⟩ := hd
    by_cases h : k' = k
    · simp [mset, mget, h]
    · simp [mset, mget, h, ih]

theorem mget_mset_ne {β : Type} (m : List (CellKey × β)) (k k' : CellKey) (v : β)
    (h : k' ≠ k) : mget (mset m k v) k' = mget m k' := by
  induction m with
  | nil => simp [mset, mget, Ne.symm h]
  | cons hd tl ih =>
    obtain ⟨a, b⟩ := hd
    by_cases ha : a = k
    · subst ha
      simp [mset, mget, Ne.symm h]
    · simp only [mset, if_neg ha, mget]
      by_cases hb : a = k'
      · simp [hb]
      · simp [hb, ih]

theorem mem_mkeys_mset {β : Type} (m : List (CellKey × β)) (k a : CellKey) (v : β) :
    a ∈ mkeys (mset m k v) ↔ a ∈ mkeys m ∨ a = k := by
  induction m with
  | nil => simp [mset, mkeys]
  | cons hd tl ih =>
    obtain ⟨k', v'⟩ := hd
    by_cases h : k' = k
    · subst h
      rw [show mset ((k', v') :: tl) k' v = (k', v) :: tl from by simp [mset]]
      simp only [mkeys, List.map_cons, List.mem_cons]
      tauto
    · simp only [mset, if_neg h, mkeys, List.map_cons, List.mem_cons] at ih ⊢
      tauto

theorem mget_eq_none_iff {β : Type} (m : List (CellKey × β)) (k : CellKey) :
    mget m k = none ↔ k ∉ mkeys m := by
  induction m with
  | nil => simp [mget, mkeys]
  | cons hd tl ih =>
    obtain ⟨k', v'⟩ := hd
    by_cases h : k' = k
    · subst h
      simp [mget, mkeys]
    · simp [mget, mkeys, h, ih, Ne.symm h]

theorem mget_isSome_iff {β : Type} (m : List (CellKey × β)) (k : CellKey) :
    (mget m k).isSome = true ↔ k ∈ mkeys m := by
  cases hm : mget m k with
  | none =>
    simp only [Option.isSome_none, Bool.false_eq_true, false_iff]
    exact (mget_eq_none_iff m k).mp hm
  | some v =>
    simp only [Option.isSome_some, true_iff]
    by_contra hk
    rw [← mget_eq_none_iff] at hk
    rw [hm] at hk
    exact Option.noConfusion hk

/-! ### Window enumeration lemmas -/

theorem mem_intRange {lo hi x : Int} : x ∈ intRange lo hi ↔ lo ≤ x ∧ x ≤ hi := by
  unfold intRange
  rw [List.mem_map]
  constructor
  · rintro ⟨n, hn, rfl⟩
    rw [List.mem_range] at hn
    omega
  · rintro ⟨h1, h2⟩
    refine ⟨(x - lo).toNat, ?_, ?_⟩
    · rw [List.mem_range]
      omega
    · omega

theorem intRange_nodup (lo hi : Int) : (intRange lo hi).Nodup := by
  unfold intRange
  refine List.Nodup.map ?_ (List.nodup_range _)
  intro a b h
  have h' : lo + (a : Int) = lo + (b : Int) := h
  omega

theorem mem_windowCells {b : Bounds} {k : CellKey} :
    k ∈ windowCells b ↔
      b.iMin ≤ k.1 ∧ k.1 ≤ b.iMax ∧ b.jMin ≤ k.2 ∧ k.2 ≤ b.jMax := by
  obtain ⟨i, j⟩ := k
  simp only [windowCells, List.mem_flatMap, List.mem_map, mem_intRange,
    Prod.mk.injEq]
  constructor
  · rintro ⟨a, ⟨h1, h2⟩, c, ⟨h3, h4⟩, rfl, rfl⟩
    exact ⟨h1, h2, h3, h4⟩
  · rintro ⟨h1, h2, h3, h4⟩
    exact ⟨i, ⟨h1, h2⟩, j, ⟨h3, h4⟩, rfl, rfl⟩

theorem windowCells_nodup (b : Bounds) : (windowCells b).Nodup := by
  have h2 := intRange_nodup b.jMin b.jMax
  have h1 := intRange_nodup b.iMin b.iMax
  unfold windowCells
  generalize intRange b.iMin b.iMax = l1 at h1
  generalize intRange b.jMin b.jMax = l2 at h2
  induction l1 with
  | nil => simp
  | cons i tl ih =>
    rw [List.flatMap_cons, List.nodup_append]
    refine ⟨h2.map ?_, ih (List.nodup_cons.mp h1).2, ?_⟩
    · intro a b hab
      injection hab
    · intro x hx hx'
      obtain ⟨a, -, rfl⟩ := List.mem_map.mp hx
      obtain ⟨a', ha', hx2⟩ := List.mem_flatMap.mp hx'
      obtain ⟨c, -, hc⟩ := List.mem_map.mp hx2
      injection hc with hc1 hc2
      subst hc1
      exact (List.nodup_cons.mp h1).1 ha'

/-! ### Coordinate system lemmas -/

/-! #### Binary64 values of the constants

Each constant is evaluated to its exact binary64 value by one application
of `round64_eq_of`: the binade bounds, the floor of the scaled significand
and the rounding direction are all discharged by `norm_num`. -/

theorem TILE_DEGREES_val :
    TILE_DEGREES = (7378697629483821 : ℚ) / 2 ^ 66 := by
  have habs : |(1 : ℚ) / 10 ^ 4| = 1 / 10 ^ 4 := abs_of_pos (by norm_num)
  unfold TILE_DEGREES
  rw [round64_eq_of (1 / 10 ^ 4) (-66) (7378697629483820 + 1)
      (by rw [habs]; norm_num) (by rw [habs]; norm_num)
      (roundNearestEven_eq_up _ 7378697629483820 (by norm_num) (by norm_num))]
  norm_num

theorem CLASSROOM_lat_val :
    CLASSROOM_LATLNG.lat = (5206996718990959 : ℚ) / 2 ^ 47 := by
  show round64 ((36997936938057016 : ℚ) / 10 ^ 15) = _
  have habs : |(36997936938057016 : ℚ) / 10 ^ 15|
      = (36997936938057016 : ℚ) / 10 ^ 15 := abs_of_pos (by norm_num)
  rw [round64_eq_of _ (-47) (5206996718990958 + 1)
      (by rw [habs]; norm_num) (by rw [habs]; norm_num)
      (roundNearestEven_eq_up _ 5206996718990958 (by norm_num) (by norm_num))]
  norm_num

theorem CLASSROOM_lng_val :
    CLASSROOM_LATLNG.lng = -((8589000276277647 : ℚ) / 2 ^ 46) := by
  show round64 (-((12205703507501151 : ℚ) / 10 ^ 14)) = _
  have habs : |(-((12205703507501151 : ℚ) / 10 ^ 14))|
      = (12205703507501151 : ℚ) / 10 ^ 14 := by
    rw [abs_of_neg (by norm_num)]
    norm_num
  rw [round64_eq_of _ (-46) (-8589000276277647)
      (by rw [habs]; norm_num) (by rw [habs]; norm_num)
      (roundNearestEven_eq_down _ (-8589000276277647) (by norm_num)
        (by norm_num))]
  norm_num

theorem CACHE_SPAWN_PROBABILITY_val :
    CACHE_SPAWN_PROBABILITY = (3602879701896397 : ℚ) / 2 ^ 55 := by
  have habs : |(1 : ℚ) / 10| = 1 / 10 := abs_of_pos (by norm_num)
  unfold CACHE_SPAWN_PROBABILITY
  rw [round64_eq_of (1 / 10) (-56) (7205759403792793 + 1)
      (by rw [habs]; norm_num) (by rw [habs]; norm_num)
      (roundNearestEven_eq_up _ 7205759403792793 (by norm_num) (by norm_num))]
  norm_num

/-! #### The coordinate round-trip under binary64 (claim C6)

The spec asks that `convertLatLong` invert `createBoundary`'s minimum
corner exactly for every cell.  Under exact rational arithmetic the
identity holds (proved below for the spec's reading), but the source
computes with doubles, and for cell `(2, 0)` the rounded quotient
`(origin.lat + 2 * TILE_DEGREES - origin.lat) / TILE_DEGREES` lands just
below `2`, so `Math.floor` returns `1`.  The step-by-step binary64 values
follow. -/

theorem fmul_two_TILE :
    fmul (((2 : Int) : ℚ)) TILE_DEGREES = (7378697629483821 : ℚ) / 2 ^ 65 := by
  unfold fmul
  rw [TILE_DEGREES_val]
  have habs : |(((2 : Int) : ℚ)) * ((7378697629483821 : ℚ) / 2 ^ 66)|
      = (((2 : Int) : ℚ)) * ((7378697629483821 : ℚ) / 2 ^ 66) :=
    abs_of_pos (by norm_num)
  rw [round64_eq_of _ (-65) 7378697629483821
      (by rw [habs]; norm_num) (by rw [habs]; norm_num)
      (roundNearestEven_eq_down _ 7378697629483821 (by norm_num)
        (by norm_num))]
  norm_num

theorem corner_i2_val :
    fadd CLASSROOM_LATLNG.lat (fmul (((2 : Int) : ℚ)) TILE_DEGREES)
      = (2603512433244315 : ℚ) / 2 ^ 46 := by
  rw [fmul_two_TILE]
  unfold fadd
  rw [CLASSROOM_lat_val]
  have habs : |(5206996718990959 : ℚ) / 2 ^ 47 + 7378697629483821 / 2 ^ 65|
      = (5206996718990959 : ℚ) / 2 ^ 47 + 7378697629483821 / 2 ^ 65 :=
    abs_of_pos (by norm_num)
  rw [round64_eq_of _ (-47) 5207024866488630
      (by rw [habs]; norm_num) (by rw [habs]; norm_num)
      (roundNearestEven_eq_down _ 5207024866488630 (by norm_num)
        (by norm_num))]
  norm_num

theorem fadd_two_one : fadd (((2 : Int) : ℚ)) 1 = 3 := by
  unfold fadd
  have habs : |(((2 : Int) : ℚ)) + 1| = (((2 : Int) : ℚ)) + 1 :=
    abs_of_pos (by norm_num)
  rw [round64_eq_of _ (-51) 6755399441055744
      (by rw [habs]; norm_num) (by rw [habs]; norm_num)
      (roundNearestEven_eq_down _ 6755399441055744 (by norm_num)
        (by norm_num))]
  norm_num

theorem fmul_three_TILE :
    fmul (3 : ℚ) TILE_DEGREES = (2767011611056433 : ℚ) / 2 ^ 63 := by
  unfold fmul
  rw [TILE_DEGREES_val]
  have habs : |(3 : ℚ) * ((7378697629483821 : ℚ) / 2 ^ 66)|
      = (3 : ℚ) * ((7378697629483821 : ℚ) / 2 ^ 66) :=
    abs_of_pos (by norm_num)
  rw [round64_eq_of _ (-64) (5534023222112865 + 1)
      (by rw [habs]; norm_num) (by rw [habs]; norm_num)
      (roundNearestEven_eq_up _ 5534023222112865 (by norm_num) (by norm_num))]
  norm_num

theorem corner_i3_val :
    fadd CLASSROOM_LATLNG.lat (fmul (fadd (((2 : Int) : ℚ)) 1) TILE_DEGREES)
      = (2603519470118733 : ℚ) / 2 ^ 46 := by
  rw [fadd_two_one, fmul_three_TILE]
  unfold fadd
  rw [CLASSROOM_lat_val]
  have habs : |(5206996718990959 : ℚ) / 2 ^ 47 + 2767011611056433 / 2 ^ 63|
      = (5206996718990959 : ℚ) / 2 ^ 47 + 2767011611056433 / 2 ^ 63 :=
    abs_of_pos (by norm_num)
  rw [round64_eq_of _ (-47) (5207038940237465 + 1)
      (by rw [habs]; norm_num) (by rw [habs]; norm_num)
      (roundNearestEven_eq_up _ 5207038940237465 (by norm_num) (by norm_num))]
  norm_num

theorem corner_j0_val :
    fadd CLASSROOM_LATLNG.lng (fmul (((0 : Int) : ℚ)) TILE_DEGREES)
      = -((8589000276277647 : ℚ) / 2 ^ 46) := by
  have h0 : fmul (((0 : Int) : ℚ)) TILE_DEGREES = 0 := by simp [fmul]
  rw [h0]
  unfold fadd
  rw [add_zero, CLASSROOM_lng_val]
  have habs : |(-((8589000276277647 : ℚ) / 2 ^ 46))|
      = (8589000276277647 : ℚ) / 2 ^ 46 := by
    rw [abs_of_neg (by norm_num)]
    norm_num
  rw [round64_eq_of _ (-46) (-8589000276277647)
      (by rw [habs]; norm_num) (by rw [habs]; norm_num)
      (roundNearestEven_eq_down _ (-8589000276277647) (by norm_num)
        (by norm_num))]
  norm_num

theorem fadd_zero_one : fadd (((0 : Int) : ℚ)) 1 = 1 := by
  unfold fadd
  have habs : |(((0 : Int) : ℚ)) + 1| = (((0 : Int) : ℚ)) + 1 :=
    abs_of_pos (by norm_num)
  rw [round64_eq_of _ (-52) 4503599627370496
      (by rw [habs]; norm_num) (by rw [habs]; norm_num)
      (roundNearestEven_eq_down _ 4503599627370496 (by norm_num)
        (by norm_num))]
  norm_num

theorem fmul_one_TILE :
    fmul (1 : ℚ) TILE_DEGREES = (7378697629483821 : ℚ) / 2 ^ 66 := by
  unfold fmul
  rw [TILE_DEGREES_val, one_mul]
  have habs : |(7378697629483821 : ℚ) / 2 ^ 66|
      = (7378697629483821 : ℚ) / 2 ^ 66 := abs_of_pos (by norm_num)
  rw [round64_eq_of _ (-66) 7378697629483821
      (by rw [habs]; norm_num) (by rw [habs]; norm_num)
      (roundNearestEven_eq_down _ 7378697629483821 (by norm_num)
        (by norm_num))]
  norm_num

theorem corner_j1_val :
    fadd CLASSROOM_LATLNG.lng (fmul (fadd (((0 : Int) : ℚ)) 1) TILE_DEGREES)
      = -((8588993239403229 : ℚ) / 2 ^ 46) := by
  rw [fadd_zero_one, fmul_one_TILE]
  unfold fadd
  rw [CLASSROOM_lng_val]
  have habs : |(-((8589000276277647 : ℚ) / 2 ^ 46) + 7378697629483821 / 2 ^ 66)|
      = -(-((8589000276277647 : ℚ) / 2 ^ 46) + 7378697629483821 / 2 ^ 66) := by
    rw [abs_of_neg (by norm_num)]
  rw [round64_eq_of _ (-46) (-8588993239403230 + 1)
      (by rw [habs]; norm_num) (by rw [habs]; norm_num)
      (roundNearestEven_eq_up _ (-8588993239403230) (by norm_num)
        (by norm_num))]
  norm_num

/-- The minimum corner of cell `(2, 0)`'s boundary, as the doubles the
source actually produces. -/
theorem createBoundary_low_2_0 :
    (createBoundary ⟨2, 0⟩).low
      = ⟨(2603512433244315 : ℚ) / 2 ^ 46,
         -((8589000276277647 : ℚ) / 2 ^ 46)⟩ := by
  simp only [createBoundary, latLngBounds]
  rw [corner_i2_val, corner_i3_val, corner_j0_val, corner_j1_val,
    min_eq_left (by norm_num), min_eq_left (by norm_num)]

theorem fsub_low_lat :
    fsub ((2603512433244315 : ℚ) / 2 ^ 46) CLASSROOM_LATLNG.lat
      = (28147497671 : ℚ) / 2 ^ 47 := by
  unfold fsub
  rw [CLASSROOM_lat_val]
  have habs : |(2603512433244315 : ℚ) / 2 ^ 46 - 5206996718990959 / 2 ^ 47|
      = (2603512433244315 : ℚ) / 2 ^ 46 - 5206996718990959 / 2 ^ 47 :=
    abs_of_pos (by norm_num)
  rw [round64_eq_of _ (-65) 7378697629466624
      (by rw [habs]; norm_num) (by rw [habs]; norm_num)
      (roundNearestEven_eq_down _ 7378697629466624 (by norm_num)
        (by norm_num))]
  norm_num

theorem fdiv_low_lat :
    fdiv ((28147497671 : ℚ) / 2 ^ 47) TILE_DEGREES
      = (17592186044375 : ℚ) / 2 ^ 43 := by
  unfold fdiv
  rw [TILE_DEGREES_val]
  have habs : |(28147497671 : ℚ) / 2 ^ 47 / ((7378697629483821 : ℚ) / 2 ^ 66)|
      = (28147497671 : ℚ) / 2 ^ 47 / ((7378697629483821 : ℚ) / 2 ^ 66) :=
    abs_of_pos (by norm_num)
  rw [round64_eq_of _ (-52) (9007199254719999 + 1)
      (by rw [habs]; norm_num) (by rw [habs]; norm_num)
      (roundNearestEven_eq_up _ 9007199254719999 (by norm_num) (by norm_num))]
  norm_num

theorem fsub_self (a : ℚ) : fsub a a = 0 := by
  simp [fsub]

theorem fdiv_zero_left (b : ℚ) : fdiv 0 b = 0 := by
  simp [fdiv]

/-- C6 (code bug): the coordinate round-trip fails under the binary64
arithmetic the source uses.  For cell `(2, 0)`, `createBoundary`'s minimum
corner converts back through `convertLatLong` to cell `(1, 0)`, not
`(2, 0)`: the double quotient `(origin.lat + 2 * 1e-4 - origin.lat) / 1e-4`
is `17592186044375 / 2 ^ 43 ≈ 1.9999999999953388`, which `Math.floor` takes
to `1`.  (The identity the spec asks for does hold of the same formulas in
exact arithmetic: `exact_coordinate_roundtrip` below.) -/
theorem C6_float_roundtrip_failure :
    convertLatLong (createBoundary ⟨2, 0⟩).low.lat
        (createBoundary ⟨2, 0⟩).low.lng = (⟨1, 0⟩ : GridCell) ∧
      (⟨1, 0⟩ : GridCell) ≠ (⟨2, 0⟩ : GridCell) := by
  constructor
  · rw [createBoundary_low_2_0]
    show GridCell.mk
        ⌊fdiv (fsub ((2603512433244315 : ℚ) / 2 ^ 46) CLASSROOM_LATLNG.lat)
          TILE_DEGREES⌋
        ⌊fdiv (fsub (-((8589000276277647 : ℚ) / 2 ^ 46)) CLASSROOM_LATLNG.lng)
          TILE_DEGREES⌋ = ⟨1, 0⟩
    rw [fsub_low_lat, fdiv_low_lat, CLASSROOM_lng_val, fsub_self,
      fdiv_zero_left]
    refine congrArg₂ GridCell.mk ?_ ?_ <;> norm_num
  · decide

/-! #### The same round-trip in exact rational arithmetic

To localise the slip, the same formulas evaluated without floating-point
rounding (the reading the spec's wording suggests) do satisfy the
round-trip for every cell. -/

/-- `convertLatLong`'s formula in exact rational arithmetic. -/
def convertLatLongExact (lat lng : ℚ) : GridCell :=
  { i := ⌊(lat - CLASSROOM_LATLNG.lat) / TILE_DEGREES⌋
  , j := ⌊(lng - CLASSROOM_LATLNG.lng) / TILE_DEGREES⌋ }

/-- `createBoundary`'s formula in exact rational arithmetic. -/
def createBoundaryExact (cell : GridCell) : LatLngBounds :=
  latLngBounds
    ⟨CLASSROOM_LATLNG.lat + cell.i * TILE_DEGREES,
     CLASSROOM_LATLNG.lng + cell.j * TILE_DEGREES⟩
    ⟨CLASSROOM_LATLNG.lat + (cell.i + 1) * TILE_DEGREES,
     CLASSROOM_LATLNG.lng + (cell.j + 1) * TILE_DEGREES⟩

theorem exact_floor_offset (o : ℚ) (n : Int) :
    ⌊(o + (n : ℚ) * TILE_DEGREES - o) / TILE_DEGREES⌋ = n := by
  have hT : (TILE_DEGREES : ℚ) ≠ 0 := by rw [TILE_DEGREES_val]; norm_num
  have h1 : (o + (n : ℚ) * TILE_DEGREES - o) / TILE_DEGREES = (n : ℚ) := by
    field_simp
  rw [h1, Int.floor_intCast]

theorem exact_coordinate_roundtrip (c : GridCell) :
    convertLatLongExact (createBoundaryExact c).low.lat
      (createBoundaryExact c).low.lng = c := by
  obtain ⟨i, j⟩ := c
  have hT : (0 : ℚ) < TILE_DEGREES := by rw [TILE_DEGREES_val]; norm_num
  have key : ∀ (o : ℚ) (n : Int),
      min (o + (n : ℚ) * TILE_DEGREES) (o + ((n : ℚ) + 1) * TILE_DEGREES)
        = o + (n : ℚ) * TILE_DEGREES := by
    intro o n
    apply min_eq_left
    have h2 : ((n : ℚ)) * TILE_DEGREES ≤ ((n : ℚ) + 1) * TILE_DEGREES := by
      nlinarith
    linarith
  simp only [convertLatLongExact, createBoundaryExact, latLngBounds]
  rw [key, key, exact_floor_offset, exact_floor_offset]

/-! ### spawnToken lemmas -/

theorem spawnToken_frame (s : GameState) (t : Token) (b : Bool) :
    (spawnToken s t b).persistentCells = s.persistentCells ∧
    (spawnToken s t b).heldToken = s.heldToken ∧
    (spawnToken s t b).controller = s.controller ∧
    (spawnToken s t b).currentMovementType = s.currentMovementType ∧
    (spawnToken s t b).storage = s.storage ∧
    (spawnToken s t b).visibleBounds = s.visibleBounds ∧
    (spawnToken s t b).randCtr = s.randCtr ∧
    (spawnToken s t b).timeCtr = s.timeCtr ∧
    (spawnToken s t b).rectCtr = s.rectCtr + 1 ∧
    (spawnToken s t b).mapLayers = s.mapLayers ++ [s.rectCtr] := by
  simp only [spawnToken]
  split <;> split <;> simp

theorem spawnToken_activeCells_self (s : GameState) (t : Token) (b : Bool) :
    mget (spawnToken s t b).activeCells (t.i, t.j) =
      some ⟨((mget s.activeCells (t.i, t.j)).getD ⟨[], []⟩).tokens
              ++ [{ t with rect := some s.rectCtr }],
            ((mget s.activeCells (t.i, t.j)).getD ⟨[], []⟩).visualElements
              ++ [s.rectCtr]⟩ := by
  cases hm : mget s.activeCells (t.i, t.j) with
  | none =>
    simp [spawnToken, getCellKey, hm, mget_mset_self]
  | some cd =>
    simp [spawnToken, getCellKey, hm, mget_mset_self]

theorem spawnToken_activeCells_self_k (s : GameState) (t : Token) (b : Bool)
    (k : CellKey) (hk : k = (t.i, t.j)) :
    mget (spawnToken s t b).activeCells k =
      some ⟨((mget s.activeCells k).getD ⟨[], []⟩).tokens
              ++ [{ t with rect := some s.rectCtr }],
            ((mget s.activeCells k).getD ⟨[], []⟩).visualElements
              ++ [s.rectCtr]⟩ := by
  subst hk
  exact spawnToken_activeCells_self s t b

theorem spawnToken_activeCells_ne (s : GameState) (t : Token) (b : Bool)
    (k : CellKey) (hk : k ≠ (t.i, t.j)) :
    mget (spawnToken s t b).activeCells k = mget s.activeCells k := by
  cases hm : mget s.activeCells (t.i, t.j) with
  | none =>
    simp [spawnToken, getCellKey, hm, mget_mset_self, mget_mset_ne _ _ _ _ hk]
  | some cd =>
    simp [spawnToken, getCellKey, hm, mget_mset_self, mget_mset_ne _ _ _ _ hk]

theorem spawnToken_mem_mkeys (s : GameState) (t : Token) (b : Bool)
    (k : CellKey) :
    k ∈ mkeys (spawnToken s t b).activeCells ↔
      k ∈ mkeys s.activeCells ∨ k = (t.i, t.j) := by
  by_cases hk : k = (t.i, t.j)
  · subst hk
    have h := spawnToken_activeCells_self s t b
    have : (mget (spawnToken s t b).activeCells (t.i, t.j)).isSome = true := by
      rw [h]; rfl
    rw [mget_isSome_iff] at this
    simp [this]
  · rw [← mget_isSome_iff, spawnToken_activeCells_ne s t b k hk, mget_isSome_iff]
    simp [hk]

@[simp] theorem spawnToken_persistentCells (s : GameState) (t : Token) (b : Bool) :
    (spawnToken s t b).persistentCells = s.persistentCells :=
  (spawnToken_frame s t b).1

@[simp] theorem spawnToken_heldToken (s : GameState) (t : Token) (b : Bool) :
    (spawnToken s t b).heldToken = s.heldToken :=
  (spawnToken_frame s t b).2.1

@[simp] theorem spawnToken_controller (s : GameState) (t : Token) (b : Bool) :
    (spawnToken s t b).controller = s.controller :=
  (spawnToken_frame s t b).2.2.1

@[simp] theorem spawnToken_currentMovementType (s : GameState) (t : Token) (b : Bool) :
    (spawnToken s t b).currentMovementType = s.currentMovementType :=
  (spawnToken_frame s t b).2.2.2.1

@[simp] theorem spawnToken_storage (s : GameState) (t : Token) (b : Bool) :
    (spawnToken s t b).storage = s.storage :=
  (spawnToken_frame s t b).2.2.2.2.1

@[simp] theorem spawnToken_visibleBounds (s : GameState) (t : Token) (b : Bool) :
    (spawnToken s t b).visibleBounds = s.visibleBounds :=
  (spawnToken_frame s t b).2.2.2.2.2.1

@[simp] theorem spawnToken_randCtr (s : GameState) (t : Token) (b : Bool) :
    (spawnToken s t b).randCtr = s.randCtr :=
  (spawnToken_frame s t b).2.2.2.2.2.2.1

@[simp] theorem spawnToken_timeCtr (s : GameState) (t : Token) (b : Bool) :
    (spawnToken s t b).timeCtr = s.timeCtr :=
  (spawnToken_frame s t b).2.2.2.2.2.2.2.1

@[simp] theorem spawnToken_rectCtr (s : GameState) (t : Token) (b : Bool) :
    (spawnToken s t b).rectCtr = s.rectCtr + 1 :=
  (spawnToken_frame s t b).2.2.2.2.2.2.2.2.1

@[simp] theorem spawnToken_mapLayers (s : GameState) (t : Token) (b : Bool) :
    (spawnToken s t b).mapLayers = s.mapLayers ++ [s.rectCtr] :=
  (spawnToken_frame s t b).2.2.2.2.2.2.2.2.2

/-! ### Observation functions used to state the rebuild characterisation -/

/-- The observable part of a token used by the claims: value and
coordinates (ids and presentation handles are not claimed). -/
def tokenObs (t : Token) : Int × Int × Int := (t.value, t.i, t.j)

/-- Whether the rebuild loop consumes a `Math.random()` draw at a cell:
the cell is pristine and its hash clears the spawn probability. -/
def spawnsAt (env : Env) (pm : List (CellKey × CellState)) (c : CellKey) : Bool :=
  !cellModified pm c && decide (env.hash c < CACHE_SPAWN_PROBABILITY)

/-- The observable token list the rebuild loop leaves in cell `c` when the
`randCtr` counter stands at `r` as the loop reaches the cell. -/
def cellObsSpec (env : Env) (pm : List (CellKey × CellState)) (c : CellKey)
    (r : Nat) : List (Int × Int × Int) :=
  if cellModified pm c then
    (loadCellState pm c).map (fun t => (t.value, c.1, c.2))
  else if env.hash c < CACHE_SPAWN_PROBABILITY then
    [((if env.rand r < 1 / 2 then 2 else 4 : Int), c.1, c.2)]
  else []

/-! ### restoreTokens lemmas -/

theorem restoreTokens_nil (env : Env) (c : CellKey) (s : GameState) :
    restoreTokens env c [] s = s := rfl

theorem restoreTokens_cons (env : Env) (c : CellKey) (t : Token)
    (ts : List Token) (s : GameState) :
    restoreTokens env c (t :: ts) s =
      restoreTokens env c ts
        (spawnToken { s with timeCtr := s.timeCtr + 1 }
          { t with i := c.1, j := c.2, id := mkTokenId c.1 c.2 (env.now s.timeCtr) }
          true) := rfl

theorem restoreTokens_frame (env : Env) (c : CellKey) (ts : List Token)
    (s : GameState) :
    (restoreTokens env c ts s).persistentCells = s.persistentCells ∧
    (restoreTokens env c ts s).heldToken = s.heldToken ∧
    (restoreTokens env c ts s).controller = s.controller ∧
    (restoreTokens env c ts s).currentMovementType = s.currentMovementType ∧
    (restoreTokens env c ts s).storage = s.storage ∧
    (restoreTokens env c ts s).visibleBounds = s.visibleBounds ∧
    (restoreTokens env c ts s).randCtr = s.randCtr := by
  induction ts generalizing s with
  | nil => simp [restoreTokens_nil]
  | cons t ts ih =>
    rw [restoreTokens_cons]
    obtain ⟨h1, h2, h3, h4, h5, h6, h7⟩ := ih
      (spawnToken { s with timeCtr := s.timeCtr + 1 }
        { t with i := c.1, j := c.2, id := mkTokenId c.1 c.2 (env.now s.timeCtr) }
        true)
    exact ⟨by simp [h1], by simp [h2], by simp [h3], by simp [h4],
      by simp [h5], by simp [h6], by simp [h7]⟩

theorem restoreTokens_activeCells_ne (env : Env) (c : CellKey) (ts : List Token)
    (s : GameState) (k : CellKey) (hk : k ≠ c) :
    mget (restoreTokens env c ts s).activeCells k = mget s.activeCells k := by
  induction ts generalizing s with
  | nil => rw [restoreTokens_nil]
  | cons t ts ih =>
    rw [restoreTokens_cons, ih]
    exact spawnToken_activeCells_ne _ _ _ _ (by simpa using hk)

theorem restoreTokens_obs (env : Env) (c : CellKey) (ts : List Token)
    (s : GameState) (A : ActiveCell) (hA : mget s.activeCells c = some A) :
    ∃ A', mget (restoreTokens env c ts s).activeCells c = some A' ∧
      A'.tokens.map tokenObs =
        A.tokens.map tokenObs ++ ts.map (fun t => (t.value, c.1, c.2)) := by
  induction ts generalizing s A with
  | nil => exact ⟨A, by rw [restoreTokens_nil]; exact hA, by simp⟩
  | cons t ts ih =>
    rw [restoreTokens_cons]
    set s' := { s with timeCtr := s.timeCtr + 1 } with hs'
    set tok : Token :=
      { t with i := c.1, j := c.2, id := mkTokenId c.1 c.2 (env.now s.timeCtr) }
      with htok
    have hself := spawnToken_activeCells_self s' tok true
    have hkey : ((tok.i, tok.j) : CellKey) = c := by simp [htok]
    rw [hkey] at hself
    have hA' : mget s'.activeCells c = some A := hA
    rw [hA'] at hself
    obtain ⟨A'', h1, h2⟩ := ih _ _ hself
    refine ⟨A'', h1, ?_⟩
    rw [h2]
    simp [htok, tokenObs]

theorem restoreTokens_mem_mkeys (env : Env) (c : CellKey) (ts : List Token)
    (s : GameState) (k : CellKey) :
    k ∈ mkeys (restoreTokens env c ts s).activeCells ↔
      k ∈ mkeys s.activeCells ∨ (k = c ∧ ts ≠ []) := by
  induction ts generalizing s with
  | nil => simp [restoreTokens_nil]
  | cons t ts ih =>
    rw [restoreTokens_cons, ih, spawnToken_mem_mkeys]
    constructor
    · rintro ((h | h) | ⟨rfl, -⟩)
      · exact Or.inl h
      · exact Or.inr ⟨h.trans Prod.mk.eta, by simp⟩
      · exact Or.inr ⟨rfl, by simp⟩
    · rintro (h | ⟨rfl, -⟩)
      · exact Or.inl (Or.inl h)
      · exact Or.inl (Or.inr Prod.mk.eta.symm)

/-! ### processCell lemmas -/

theorem processCell_frame (env : Env) (s : GameState) (c : CellKey) :
    (processCell env s c).persistentCells = s.persistentCells ∧
    (processCell env s c).heldToken = s.heldToken ∧
    (processCell env s c).controller = s.controller ∧
    (processCell env s c).currentMovementType = s.currentMovementType ∧
    (processCell env s c).storage = s.storage ∧
    (processCell env s c).visibleBounds = s.visibleBounds := by
  simp only [processCell, createToken]
  split
  · obtain ⟨h1, h2, h3, h4, h5, h6, -⟩ := restoreTokens_frame env c
      (loadCellState s.persistentCells c)
      { s with activeCells := mset s.activeCells c ⟨[], []⟩ }
    exact ⟨by simp [h1], by simp [h2], by simp [h3], by simp [h4],
      by simp [h5], by simp [h6]⟩
  · split
    · exact ⟨by simp, by simp, by simp, by simp, by simp, by simp⟩
    · exact ⟨by simp, by simp, by simp, by simp, by simp, by simp⟩

@[simp] theorem processCell_persistentCells (env : Env) (s : GameState) (c : CellKey) :
    (processCell env s c).persistentCells = s.persistentCells :=
  (processCell_frame env s c).1

@[simp] theorem processCell_heldToken (env : Env) (s : GameState) (c : CellKey) :
    (processCell env s c).heldToken = s.heldToken :=
  (processCell_frame env s c).2.1

@[simp] theorem processCell_controller (env : Env) (s : GameState) (c : CellKey) :
    (processCell env s c).controller = s.controller :=
  (processCell_frame env s c).2.2.1

@[simp] theorem processCell_currentMovementType (env : Env) (s : GameState) (c : CellKey) :
    (processCell env s c).currentMovementType = s.currentMovementType :=
  (processCell_frame env s c).2.2.2.1

@[simp] theorem processCell_storage (env : Env) (s : GameState) (c : CellKey) :
    (processCell env s c).storage = s.storage :=
  (processCell_frame env s c).2.2.2.2.1

@[simp] theorem processCell_visibleBounds (env : Env) (s : GameState) (c : CellKey) :
    (processCell env s c).visibleBounds = s.visibleBounds :=
  (processCell_frame env s c).2.2.2.2.2

theorem processCell_randCtr (env : Env) (s : GameState) (c : CellKey) :
    (processCell env s c).randCtr =
      s.randCtr + (if spawnsAt env s.persistentCells c then 1 else 0) := by
  simp only [processCell, createToken, spawnsAt]
  by_cases hm : cellModified s.persistentCells c
  · obtain ⟨-, -, -, -, -, -, h7⟩ := restoreTokens_frame env c
      (loadCellState s.persistentCells c)
      { s with activeCells := mset s.activeCells c ⟨[], []⟩ }
    simp [hm, h7]
  · by_cases hh : env.hash c < CACHE_SPAWN_PROBABILITY
    · simp [hm, hh]
    · simp [hm, hh]

theorem processCell_activeCells_ne (env : Env) (s : GameState) (c k : CellKey)
    (hk : k ≠ c) :
    mget (processCell env s c).activeCells k = mget s.activeCells k := by
  simp only [processCell, createToken]
  by_cases hm : cellModified s.persistentCells c
  · simp only [hm, if_true]
    rw [restoreTokens_activeCells_ne _ _ _ _ _ hk]
    simp [mget_mset_ne _ _ _ _ hk]
  · by_cases hh : env.hash c < CACHE_SPAWN_PROBABILITY
    · simp only [hm, hh, if_true, if_false, Bool.false_eq_true]
      rw [spawnToken_activeCells_ne _ _ _ _ (by simpa using hk)]
      simp [mget_mset_ne _ _ _ _ hk]
    · simp [hm, hh, mget_mset_ne _ _ _ _ hk]

theorem processCell_obs_self (env : Env) (s : GameState) (c : CellKey) :
    ∃ cd, mget (processCell env s c).activeCells c = some cd ∧
      cd.tokens.map tokenObs = cellObsSpec env s.persistentCells c s.randCtr := by
  simp only [processCell, createToken, cellObsSpec]
  by_cases hm : cellModified s.persistentCells c
  · simp only [hm, if_true]
    have hA : mget (mset s.activeCells c (⟨[], []⟩ : ActiveCell)) c =
        some ⟨[], []⟩ := mget_mset_self _ _ _
    obtain ⟨A', h1, h2⟩ := restoreTokens_obs env c
      (loadCellState s.persistentCells c)
      { s with activeCells := mset s.activeCells c ⟨[], []⟩ } ⟨[], []⟩ hA
    exact ⟨A', h1, by simpa using h2⟩
  · by_cases hh : env.hash c < CACHE_SPAWN_PROBABILITY
    · simp only [hm, hh, if_true, if_false, Bool.false_eq_true]
      set s1 : GameState :=
        { s with activeCells := mset s.activeCells c ⟨[], []⟩,
                 randCtr := s.randCtr + 1, timeCtr := s.timeCtr + 1 } with hs1
      set tok : Token :=
        { id := mkTokenId c.1 c.2 (env.now s.timeCtr),
          value := if env.rand s.randCtr < 1 / 2 then 2 else 4,
          i := c.1, j := c.2, rect := none } with htok
      have hself := spawnToken_activeCells_self s1 tok false
      have hkey : ((tok.i, tok.j) : CellKey) = c := by simp [htok]
      rw [hkey] at hself
      have hA : mget s1.activeCells c = some ⟨[], []⟩ := by
        rw [hs1]
        exact mget_mset_self _ _ _
      rw [hA] at hself
      refine ⟨_, hself, ?_⟩
      simp [htok, tokenObs]
    · simp only [hm, hh, if_false, Bool.false_eq_true]
      exact ⟨⟨[], []⟩, mget_mset_self _ _ _, by simp⟩

theorem processCell_mem_mkeys (env : Env) (s : GameState) (c k : CellKey) :
    k ∈ mkeys (processCell env s c).activeCells ↔
      k ∈ mkeys s.activeCells ∨ k = c := by
  by_cases hk : k = c
  · subst hk
    obtain ⟨cd, h1, -⟩ := processCell_obs_self env s k
    have : (mget (processCell env s k).activeCells k).isSome = true := by
      rw [h1]; rfl
    rw [mget_isSome_iff] at this
    simp [this]
  · rw [← mget_isSome_iff, processCell_activeCells_ne env s c k hk,
      mget_isSome_iff]
    simp [hk]

/-! ### Rebuild-loop (foldl) lemmas -/

theorem foldl_processCell_frame (env : Env) (L : List CellKey) (s : GameState) :
    (L.foldl (processCell env) s).persistentCells = s.persistentCells ∧
    (L.foldl (processCell env) s).heldToken = s.heldToken ∧
    (L.foldl (processCell env) s).controller = s.controller ∧
    (L.foldl (processCell env) s).currentMovementType = s.currentMovementType ∧
    (L.foldl (processCell env) s).storage = s.storage ∧
    (L.foldl (processCell env) s).visibleBounds = s.visibleBounds := by
  induction L generalizing s with
  | nil => simp
  | cons a L ih =>
    rw [List.foldl_cons]
    obtain ⟨h1, h2, h3, h4, h5, h6⟩ := ih (processCell env s a)
    exact ⟨by simp [h1], by simp [h2], by simp [h3], by simp [h4],
      by simp [h5], by simp [h6]⟩

theorem foldl_processCell_randCtr (env : Env) (L : List CellKey) (s : GameState) :
    (L.foldl (processCell env) s).randCtr =
      s.randCtr + L.countP (spawnsAt env s.persistentCells) := by
  induction L generalizing s with
  | nil => simp
  | cons a L ih =>
    rw [List.foldl_cons, ih, List.countP_cons]
    rw [processCell_randCtr, processCell_persistentCells]
    by_cases h : spawnsAt env s.persistentCells a
    · simp [h]
      omega
    · simp [h]

theorem foldl_processCell_not_mem (env : Env) (L : List CellKey) (s : GameState)
    (k : CellKey) (hk : k ∉ L) :
    mget (L.foldl (processCell env) s).activeCells k = mget s.activeCells k := by
  induction L generalizing s with
  | nil => simp
  | cons a L ih =>
    rw [List.foldl_cons, ih _ (fun h => hk (List.mem_cons_of_mem a h)),
      processCell_activeCells_ne]
    intro h
    exact hk (h ▸ List.mem_cons_self a L)

theorem foldl_processCell_mem_mkeys (env : Env) (L : List CellKey) (s : GameState)
    (k : CellKey) :
    k ∈ mkeys (L.foldl (processCell env) s).activeCells ↔
      k ∈ mkeys s.activeCells ∨ k ∈ L := by
  induction L generalizing s with
  | nil => simp
  | cons a L ih =>
    rw [List.foldl_cons, ih, processCell_mem_mkeys, List.mem_cons]
    tauto

theorem foldl_processCell_obs (env : Env) (s : GameState) (L₁ L₂ : List CellKey)
    (c : CellKey) (hc : c ∉ L₂) :
    ∃ cd, mget ((L₁ ++ c :: L₂).foldl (processCell env) s).activeCells c = some cd ∧
      cd.tokens.map tokenObs =
        cellObsSpec env s.persistentCells c
          (s.randCtr + L₁.countP (spawnsAt env s.persistentCells)) := by
  induction L₁ generalizing s with
  | nil =>
    obtain ⟨cd, h1, h2⟩ := processCell_obs_self env s c
    refine ⟨cd, ?_, by simpa using h2⟩
    rw [List.nil_append, List.foldl_cons, foldl_processCell_not_mem env L₂ _ c hc]
    exact h1
  | cons a L₁ ih =>
    rw [List.cons_append, List.foldl_cons]
    obtain ⟨cd, h1, h2⟩ := ih (processCell env s a)
    refine ⟨cd, h1, ?_⟩
    rw [h2, processCell_persistentCells, processCell_randCtr, List.countP_cons]
    congr 1
    by_cases h : spawnsAt env s.persistentCells a
    · simp [h]
      omega
    · simp [h]

/-! ### Presentation-handle freshness invariant -/

/-- The leaflet layer list holds no duplicate handles and every handle on
the map was drawn from the (strictly increasing) rectangle counter. -/
def LayersOK (s : GameState) : Prop :=
  s.mapLayers.Nodup ∧ ∀ h ∈ s.mapLayers, h < s.rectCtr

theorem LayersOK_spawnToken (s : GameState) (t : Token) (b : Bool)
    (hs : LayersOK s) : LayersOK (spawnToken s t b) := by
  obtain ⟨h1, h2⟩ := hs
  constructor
  · rw [spawnToken_mapLayers]
    rw [List.nodup_append]
    refine ⟨h1, List.nodup_singleton _, ?_⟩
    intro x hx hx'
    rw [List.mem_singleton] at hx'
    subst hx'
    exact lt_irrefl _ (h2 _ hx)
  · intro h hh
    rw [spawnToken_mapLayers] at hh
    rw [spawnToken_rectCtr]
    rcases List.mem_append.mp hh with h' | h'
    · exact lt_trans (h2 _ h') (Nat.lt_succ_self _)
    · rw [List.mem_singleton] at h'
      subst h'
      exact Nat.lt_succ_self _

theorem LayersOK_restoreTokens (env : Env) (c : CellKey) (ts : List Token)
    (s : GameState) (hs : LayersOK s) : LayersOK (restoreTokens env c ts s) := by
  induction ts generalizing s with
  | nil => rw [restoreTokens_nil]; exact hs
  | cons t ts ih =>
    rw [restoreTokens_cons]
    exact ih _ (LayersOK_spawnToken _ _ _ ⟨hs.1, hs.2⟩)

theorem LayersOK_processCell (env : Env) (s : GameState) (c : CellKey)
    (hs : LayersOK s) : LayersOK (processCell env s c) := by
  simp only [processCell, createToken]
  have hs1 : LayersOK { s with activeCells := mset s.activeCells c ⟨[], []⟩ } := hs
  split
  · exact LayersOK_restoreTokens env c _ _ hs1
  · split
    · exact LayersOK_spawnToken _ _ _ hs1
    · exact hs1

theorem LayersOK_foldl (env : Env) (L : List CellKey) (s : GameState)
    (hs : LayersOK s) : LayersOK (L.foldl (processCell env) s) := by
  induction L generalizing s with
  | nil => exact hs
  | cons a L ih => exact ih _ (LayersOK_processCell env s a hs)

theorem LayersOK_eraseFold (layers : List Nat) (toRemove : List Nat) (n : Nat)
    (h1 : layers.Nodup) (h2 : ∀ h ∈ layers, h < n) :
    (toRemove.foldl (fun m h => m.erase h) layers).Nodup ∧
      ∀ h ∈ toRemove.foldl (fun m h => m.erase h) layers, h < n := by
  induction toRemove generalizing layers with
  | nil => exact ⟨h1, h2⟩
  | cons r toRemove ih =>
    rw [List.foldl_cons]
    exact ih _ (h1.erase r) (fun h hh => h2 _ (List.mem_of_mem_erase hh))

theorem LayersOK_updateVisibleCells (env : Env) (s : GameState)
    (hs : LayersOK s) : LayersOK (updateVisibleCells env s) := by
  unfold updateVisibleCells
  cases hp : s.controller.getCurrentPosition with
  | none => exact hs
  | some pos =>
    simp only
    obtain ⟨h1, h2⟩ := LayersOK_eraseFold s.mapLayers _ s.rectCtr hs.1 hs.2
    have := LayersOK_foldl env
      (windowCells
        { iMin := (convertLatLong pos.lat pos.lng).i - VISIBLE_RADIUS,
          iMax := (convertLatLong pos.lat pos.lng).i + VISIBLE_RADIUS,
          jMin := (convertLatLong pos.lat pos.lng).j - VISIBLE_RADIUS,
          jMax := (convertLatLong pos.lat pos.lng).j + VISIBLE_RADIUS })
      { s with
        mapLayers :=
          (s.activeCells.foldl (fun acc kv => acc ++ kv.2.visualElements)
            []).foldl (fun m h => m.erase h) s.mapLayers,
        activeCells := [] }
      ⟨h1, h2⟩
    exact ⟨this.1, this.2⟩

/-! ### updateVisibleCells corollaries -/

/-- The window bounds computed by `updateVisibleCells` from a position. -/
def windowBoundsOf (pos : LatLng) : Bounds :=
  { iMin := (convertLatLong pos.lat pos.lng).i - VISIBLE_RADIUS,
    iMax := (convertLatLong pos.lat pos.lng).i + VISIBLE_RADIUS,
    jMin := (convertLatLong pos.lat pos.lng).j - VISIBLE_RADIUS,
    jMax := (convertLatLong pos.lat pos.lng).j + VISIBLE_RADIUS }

/-- The state after `updateVisibleCells` has removed every active
rectangle from the map and cleared `activeCells`, before the loop runs. -/
def clearedState (s : GameState) : GameState :=
  { s with
    mapLayers :=
      (s.activeCells.foldl (fun acc kv => acc ++ kv.2.visualElements)
        []).foldl (fun m h => m.erase h) s.mapLayers,
    activeCells := [] }

theorem updateVisibleCells_eq (env : Env) (s : GameState) (pos : LatLng)
    (hp : s.controller.getCurrentPosition = some pos) :
    updateVisibleCells env s =
      { (windowCells (windowBoundsOf pos)).foldl (processCell env)
          (clearedState s) with
        visibleBounds := windowBoundsOf pos } := by
  unfold updateVisibleCells
  rw [hp]
  rfl

@[simp] theorem updateVisibleCells_none (env : Env) (s : GameState)
    (hp : s.controller.getCurrentPosition = none) :
    updateVisibleCells env s = s := by
  unfold updateVisibleCells
  rw [hp]

theorem updateVisibleCells_frame (env : Env) (s : GameState) :
    (updateVisibleCells env s).persistentCells = s.persistentCells ∧
    (updateVisibleCells env s).heldToken = s.heldToken ∧
    (updateVisibleCells env s).controller = s.controller ∧
    (updateVisibleCells env s).currentMovementType = s.currentMovementType ∧
    (updateVisibleCells env s).storage = s.storage := by
  cases hp : s.controller.getCurrentPosition with
  | none => rw [updateVisibleCells_none env s hp]; exact ⟨rfl, rfl, rfl, rfl, rfl⟩
  | some pos =>
    rw [updateVisibleCells_eq env s pos hp]
    obtain ⟨h1, h2, h3, h4, h5, -⟩ :=
      foldl_processCell_frame env (windowCells (windowBoundsOf pos)) (clearedState s)
    exact ⟨by simpa [clearedState] using h1, by simpa [clearedState] using h2,
      by simpa [clearedState] using h3, by simpa [clearedState] using h4,
      by simpa [clearedState] using h5⟩

@[simp] theorem updateVisibleCells_persistentCells (env : Env) (s : GameState) :
    (updateVisibleCells env s).persistentCells = s.persistentCells :=
  (updateVisibleCells_frame env s).1

@[simp] theorem updateVisibleCells_heldToken (env : Env) (s : GameState) :
    (updateVisibleCells env s).heldToken = s.heldToken :=
  (updateVisibleCells_frame env s).2.1

@[simp] theorem updateVisibleCells_controller (env : Env) (s : GameState) :
    (updateVisibleCells env s).controller = s.controller :=
  (updateVisibleCells_frame env s).2.2.1

@[simp] theorem updateVisibleCells_currentMovementType (env : Env) (s : GameState) :
    (updateVisibleCells env s).currentMovementType = s.currentMovementType :=
  (updateVisibleCells_frame env s).2.2.2.1

@[simp] theorem updateVisibleCells_storage (env : Env) (s : GameState) :
    (updateVisibleCells env s).storage = s.storage :=
  (updateVisibleCells_frame env s).2.2.2.2

theorem updateVisibleCells_visibleBounds (env : Env) (s : GameState) (pos : LatLng)
    (hp : s.controller.getCurrentPosition = some pos) :
    (updateVisibleCells env s).visibleBounds = windowBoundsOf pos := by
  rw [updateVisibleCells_eq env s pos hp]

theorem updateVisibleCells_randCtr (env : Env) (s : GameState) (pos : LatLng)
    (hp : s.controller.getCurrentPosition = some pos) :
    (updateVisibleCells env s).randCtr =
      s.randCtr + (windowCells (windowBoundsOf pos)).countP
        (spawnsAt env s.persistentCells) := by
  rw [updateVisibleCells_eq env s pos hp]
  have h := foldl_processCell_randCtr env (windowCells (windowBoundsOf pos))
    (clearedState s)
  simpa [clearedState] using h

theorem updateVisibleCells_mem_mkeys (env : Env) (s : GameState) (pos : LatLng)
    (hp : s.controller.getCurrentPosition = some pos) (k : CellKey) :
    k ∈ mkeys (updateVisibleCells env s).activeCells ↔
      (windowBoundsOf pos).iMin ≤ k.1 ∧ k.1 ≤ (windowBoundsOf pos).iMax ∧
      (windowBoundsOf pos).jMin ≤ k.2 ∧ k.2 ≤ (windowBoundsOf pos).jMax := by
  rw [updateVisibleCells_eq env s pos hp]
  have h := foldl_processCell_mem_mkeys env (windowCells (windowBoundsOf pos))
    (clearedState s) k
  dsimp only
  rw [h]
  have : mkeys (clearedState s).activeCells = [] := rfl
  rw [this]
  simp only [List.not_mem_nil, false_or]
  exact mem_windowCells

theorem updateVisibleCells_not_mem (env : Env) (s : GameState) (pos : LatLng)
    (hp : s.controller.getCurrentPosition = some pos) (k : CellKey)
    (hk : k ∉ windowCells (windowBoundsOf pos)) :
    mget (updateVisibleCells env s).activeCells k = none := by
  rw [updateVisibleCells_eq env s pos hp]
  dsimp only
  rw [foldl_processCell_not_mem env _ _ k hk]
  rfl

theorem updateVisibleCells_obs_split (env : Env) (s : GameState) (pos : LatLng)
    (hp : s.controller.getCurrentPosition = some pos) (L₁ L₂ : List CellKey)
    (c : CellKey) (hL : windowCells (windowBoundsOf pos) = L₁ ++ c :: L₂)
    (hc : c ∉ L₂) :
    ∃ cd, mget (updateVisibleCells env s).activeCells c = some cd ∧
      cd.tokens.map tokenObs =
        cellObsSpec env s.persistentCells c
          (s.randCtr + L₁.countP (spawnsAt env s.persistentCells)) := by
  rw [updateVisibleCells_eq env s pos hp]
  dsimp only
  rw [hL]
  obtain ⟨cd, h1, h2⟩ := foldl_processCell_obs env (clearedState s) L₁ L₂ c hc
  exact ⟨cd, h1, by simpa [clearedState] using h2⟩

theorem updateVisibleCells_obs_mem (env : Env) (s : GameState) (pos : LatLng)
    (hp : s.controller.getCurrentPosition = some pos) (c : CellKey)
    (hc : c ∈ windowCells (windowBoundsOf pos)) :
    ∃ cd r, mget (updateVisibleCells env s).activeCells c = some cd ∧
      cd.tokens.map tokenObs = cellObsSpec env s.persistentCells c r := by
  obtain ⟨L₁, L₂, hL⟩ := List.append_of_mem hc
  have hnd := windowCells_nodup (windowBoundsOf pos)
  rw [hL] at hnd
  have hc2 : c ∉ L₂ := by
    rw [List.nodup_append] at hnd
    exact fun h => (List.nodup_cons.mp hnd.2.1).1 h
  obtain ⟨cd, h1, h2⟩ :=
    updateVisibleCells_obs_split env s pos hp L₁ L₂ c hL hc2
  exact ⟨cd, _, h1, h2⟩

/-! ### saveGameState projections -/

@[simp] theorem saveGameState_activeCells (s : GameState) :
    (saveGameState s).activeCells = s.activeCells := rfl

@[simp] theorem saveGameState_persistentCells (s : GameState) :
    (saveGameState s).persistentCells = s.persistentCells := rfl

@[simp] theorem saveGameState_heldToken (s : GameState) :
    (saveGameState s).heldToken = s.heldToken := rfl

@[simp] theorem saveGameState_controller (s : GameState) :
    (saveGameState s).controller = s.controller := rfl

@[simp] theorem saveGameState_currentMovementType (s : GameState) :
    (saveGameState s).currentMovementType = s.currentMovementType := rfl

@[simp] theorem saveGameState_mapLayers (s : GameState) :
    (saveGameState s).mapLayers = s.mapLayers := rfl

/-! ### Witness fixtures: a concrete environment and game states -/

/-- A concrete oracle environment: only cell `(0, 0)` hashes under the
spawn probability; the first `Math.random()` draw is below one half and all
later draws are not. -/
def witnessEnv : Env :=
  { hash := fun c => if c = ((0 : Int), (0 : Int)) then 0 else 1 / 2,
    rand := fun n => if n = 0 then 0 else 1,
    now := fun _ => 0 }

/-- The state right after start-up with a button controller at the
classroom. -/
def baseState : GameState :=
  { heldToken := none, persistentCells := [], activeCells := [],
    visibleBounds := ⟨0, 0, 0, 0⟩,
    controller := Controller.buttonCtrl CLASSROOM_LATLNG,
    currentMovementType := MovementType.buttons, mapLayers := [],
    rectCtr := 0, randCtr := 0, timeCtr := 0, storage := Stored.absent }

/-- A state whose geolocation controller has not yet received a sample. -/
def geoNoneState : GameState :=
  { baseState with controller := Controller.geoCtrl none }

/-! ### Claim C1 -/

/-- C1 — Override persistence round-trip: `saveCellState k T` followed by
`loadCellState k` returns a token list equal to `T` in value and
coordinates; and on a key with no entry (no `save` ever ran), `loadCellState`
returns `[]` and `cellModified` is `false`.  `loadCellState` is a pure read
of `persistentCells` (its Lean type has no state output), so no entry can be
created by a load. -/
theorem C1_override_roundtrip (pc : List (CellKey × CellState)) (k : CellKey)
    (T : List Token) :
    ((loadCellState (saveCellState pc k T) k).map (fun t => (t.value, t.i, t.j)) =
      T.map (fun t => (t.value, t.i, t.j))) ∧
    (mget pc k = none →
      loadCellState pc k = [] ∧ cellModified pc k = false) := by
  constructor
  · simp [loadCellState, saveCellState, mget_mset_self]
  · intro hk
    constructor
    · simp [loadCellState, hk]
    · simp [cellModified, hk]

theorem C1_override_roundtrip_witness :
    mget ([] : List (CellKey × CellState)) ((0 : Int), (0 : Int)) = none ∧
    ((loadCellState (saveCellState [] ((0 : Int), (0 : Int))
        [(⟨"0,0-0", 4, 0, 0, none⟩ : Token)]) ((0 : Int), (0 : Int))).map
          (fun t => (t.value, t.i, t.j)) =
        [(⟨"0,0-0", 4, 0, 0, none⟩ : Token)].map (fun t => (t.value, t.i, t.j))) ∧
    loadCellState [] ((0 : Int), (0 : Int)) = [] ∧
    cellModified [] ((0 : Int), (0 : Int)) = false := by
  refine ⟨rfl, ?_, ?_⟩
  · exact (C1_override_roundtrip [] ((0 : Int), (0 : Int))
      [(⟨"0,0-0", 4, 0, 0, none⟩ : Token)]).1
  · exact (C1_override_roundtrip [] ((0 : Int), (0 : Int))
      [(⟨"0,0-0", 4, 0, 0, none⟩ : Token)]).2 rfl

/-! ### Claim C10 -/

/-- C10 — Null-position no-op: when the active controller's
`getCurrentPosition()` is `null`, both `dropToken` and `updateVisibleCells`
return with the whole state (held token, override store, active cells,
recorded bounds, everything) unchanged. -/
theorem C10_null_position_noop (env : Env) (s : GameState)
    (hp : s.controller.getCurrentPosition = none) :
    dropToken env s = s ∧ updateVisibleCells env s = s := by
  constructor
  · cases hh : s.heldToken with
    | none => simp only [dropToken, hh]
    | some held => simp only [dropToken, hh, hp]
  · exact updateVisibleCells_none env s hp

theorem C10_null_position_noop_witness :
    geoNoneState.controller.getCurrentPosition = none ∧
    (dropToken witnessEnv geoNoneState = geoNoneState ∧
     updateVisibleCells witnessEnv geoNoneState = geoNoneState) :=
  ⟨rfl, C10_null_position_noop witnessEnv geoNoneState rfl⟩

/-! ### Claim C3 -/

/-- C3 — Combine correctness: holding a token of the target's value,
`combineTokens` leaves the target's cell holding exactly its previous
tokens minus the target (filtered by id) plus one new token of doubled
value at the target's coordinates, and clears the held slot; on a value
mismatch (or with nothing held) the whole state is returned unchanged. -/
theorem C3_combine_correctness (env : Env) (s : GameState) (target held : Token)
    (hh : s.heldToken = some held) :
    (held.value = target.value →
      (∃ cd ct,
        mget (combineTokens env s target).activeCells (target.i, target.j) =
          some cd ∧
        cd.tokens =
          (((mget s.activeCells (target.i, target.j)).getD ⟨[], []⟩).tokens.filter
            (fun (t : Token) => t.id ≠ target.id)) ++ [ct] ∧
        ct.value = 2 * target.value ∧ ct.i = target.i ∧ ct.j = target.j) ∧
      (combineTokens env s target).heldToken = none) ∧
    (held.value ≠ target.value → combineTokens env s target = s) := by
  constructor
  · intro hv
    have hcond : ¬(held.value ≠ target.value) := fun hne => hne hv
    cases hcd : mget s.activeCells (target.i, target.j) with
    | some cellData =>
      cases hr : target.rect with
      | some r =>
        simp only [combineTokens, hh, getCellKey, hcd, hr, if_neg hcond]
        rw [spawnToken_activeCells_self_k _ _ _ _ rfl]
        simp only [saveGameState_activeCells, saveGameState_heldToken,
          mget_mset_self, Option.getD_some, hcd]
        rw [spawnToken_activeCells_self_k _ _ _ _ rfl]
        simp only [mget_mset_self, Option.getD_some]
        refine ⟨⟨_, _, rfl, rfl, ?_, rfl, rfl⟩, trivial⟩
        exact mul_comm target.value 2
      | none =>
        simp only [combineTokens, hh, getCellKey, hcd, hr, if_neg hcond]
        rw [spawnToken_activeCells_self_k _ _ _ _ rfl]
        simp only [saveGameState_activeCells, saveGameState_heldToken,
          mget_mset_self, Option.getD_some, hcd]
        rw [spawnToken_activeCells_self_k _ _ _ _ rfl]
        simp only [mget_mset_self, Option.getD_some]
        refine ⟨⟨_, _, rfl, rfl, ?_, rfl, rfl⟩, trivial⟩
        exact mul_comm target.value 2
    | none =>
      simp only [combineTokens, hh, getCellKey, hcd, if_neg hcond]
      rw [spawnToken_activeCells_self_k _ _ _ _ rfl]
      simp only [saveGameState_activeCells, saveGameState_heldToken,
        mget_mset_self, Option.getD_some, hcd, Option.getD_none]
      rw [spawnToken_activeCells_self_k _ _ _ _ rfl]
      simp only [mget_mset_self, Option.getD_some]
      refine ⟨⟨_, ⟨mkTokenId target.i target.j (env.now s.timeCtr),
        target.value * 2, target.i, target.j, some s.rectCtr⟩,
        rfl, ?_, ?_, rfl, rfl⟩, trivial⟩
      · simp [hcd]
      · exact mul_comm target.value 2
  · intro hne
    simp only [combineTokens, hh, if_pos hne]

/-- The resident token used by the combine/pickup witnesses. -/
def targetToken : Token := ⟨"1,1-0", 4, 1, 1, some 0⟩

/-- The held token used by the combine/drop witnesses. -/
def heldTok : Token := ⟨"0,0-0", 4, 0, 0, none⟩

/-- A state holding `heldTok` with `targetToken` resident in active cell
`(1, 1)`. -/
def combineState : GameState :=
  { baseState with
    heldToken := some heldTok,
    activeCells := [((1, 1), ⟨[targetToken], [0]⟩)],
    mapLayers := [0], rectCtr := 1 }

theorem C3_combine_correctness_witness :
    combineState.heldToken = some heldTok ∧
    heldTok.value = targetToken.value ∧
    ((∃ cd ct,
        mget (combineTokens witnessEnv combineState targetToken).activeCells
          (targetToken.i, targetToken.j) = some cd ∧
        cd.tokens =
          (((mget combineState.activeCells (targetToken.i, targetToken.j)).getD
            ⟨[], []⟩).tokens.filter (fun (t : Token) => t.id ≠ targetToken.id))
            ++ [ct] ∧
        ct.value = 2 * targetToken.value ∧ ct.i = targetToken.i ∧
        ct.j = targetToken.j) ∧
      (combineTokens witnessEnv combineState targetToken).heldToken = none) :=
  ⟨rfl, rfl,
    (C3_combine_correctness witnessEnv combineState targetToken heldTok rfl).1 rfl⟩

/-! ### Claim C5 -/

/-- C5 — Memento consistency: after each of `handleTokenPickup` (when the
token's cell is active), `dropToken` (with a held token and a position) and
`combineTokens` (with a matching held token), the override entry stored for
the mutated cell holds exactly the cell's current active token list. -/
theorem C5_memento_consistency (env : Env) (s : GameState)
    (token target held : Token) (pos : LatLng)
    (hcd : (mget s.activeCells (token.i, token.j)).isSome = true)
    (hh : s.heldToken = some held)
    (hp : s.controller.getCurrentPosition = some pos)
    (hv : held.value = target.value) :
    ((mget (handleTokenPickup s token).persistentCells (token.i, token.j)).map
        CellState.baseTokens =
      (mget (handleTokenPickup s token).activeCells (token.i, token.j)).map
        ActiveCell.tokens) ∧
    ((mget (dropToken env s).persistentCells
        ((convertLatLong pos.lat pos.lng).i, (convertLatLong pos.lat pos.lng).j)).map
        CellState.baseTokens =
      (mget (dropToken env s).activeCells
        ((convertLatLong pos.lat pos.lng).i, (convertLatLong pos.lat pos.lng).j)).map
        ActiveCell.tokens) ∧
    ((mget (combineTokens env s target).persistentCells (target.i, target.j)).map
        CellState.baseTokens =
      (mget (combineTokens env s target).activeCells (target.i, target.j)).map
        ActiveCell.tokens) := by
  have hcond : ¬(held.value ≠ target.value) := fun hne => hne hv
  obtain ⟨cellData, hm⟩ := Option.isSome_iff_exists.mp hcd
  refine ⟨?_, ?_, ?_⟩
  · -- pickup
    cases hr : token.rect with
    | some r =>
      simp only [handleTokenPickup, getCellKey, hm, hr, saveGameState_persistentCells,
        saveGameState_activeCells, saveCellState]
      simp [mget_mset_self]
    | none =>
      simp only [handleTokenPickup, getCellKey, hm, hr, saveGameState_persistentCells,
        saveGameState_activeCells, saveCellState]
      simp [mget_mset_self]
  · -- drop
    simp only [dropToken, hh, hp, getCellKey]
    rw [spawnToken_activeCells_self_k _ _ _ _ rfl]
    simp only [saveGameState_persistentCells, saveGameState_activeCells,
      saveCellState]
    rw [spawnToken_activeCells_self_k _ _ _ _ rfl]
    simp [mget_mset_self]
  · -- combine
    cases hcd2 : mget s.activeCells (target.i, target.j) with
    | some cellData2 =>
      cases hr : target.rect with
      | some r =>
        simp only [combineTokens, hh, getCellKey, hcd2, hr, if_neg hcond]
        rw [spawnToken_activeCells_self_k _ _ _ _ rfl]
        simp only [saveGameState_persistentCells, saveGameState_activeCells,
          saveCellState]
        rw [spawnToken_activeCells_self_k _ _ _ _ rfl]
        simp [mget_mset_self]
      | none =>
        simp only [combineTokens, hh, getCellKey, hcd2, hr, if_neg hcond]
        rw [spawnToken_activeCells_self_k _ _ _ _ rfl]
        simp only [saveGameState_persistentCells, saveGameState_activeCells,
          saveCellState]
        rw [spawnToken_activeCells_self_k _ _ _ _ rfl]
        simp [mget_mset_self]
    | none =>
      simp only [combineTokens, hh, getCellKey, hcd2, if_neg hcond]
      rw [spawnToken_activeCells_self_k _ _ _ _ rfl]
      simp only [saveGameState_persistentCells, saveGameState_activeCells,
        saveCellState]
      rw [spawnToken_activeCells_self_k _ _ _ _ rfl]
      simp [mget_mset_self]

theorem C5_memento_consistency_witness :
    (mget combineState.activeCells (targetToken.i, targetToken.j)).isSome = true ∧
    combineState.heldToken = some heldTok ∧
    combineState.controller.getCurrentPosition = some CLASSROOM_LATLNG ∧
    heldTok.value = targetToken.value ∧
    ((mget (handleTokenPickup combineState targetToken).persistentCells
        (targetToken.i, targetToken.j)).map CellState.baseTokens =
      (mget (handleTokenPickup combineState targetToken).activeCells
        (targetToken.i, targetToken.j)).map ActiveCell.tokens) ∧
    ((mget (dropToken witnessEnv combineState).persistentCells
        ((convertLatLong CLASSROOM_LATLNG.lat CLASSROOM_LATLNG.lng).i,
         (convertLatLong CLASSROOM_LATLNG.lat CLASSROOM_LATLNG.lng).j)).map
        CellState.baseTokens =
      (mget (dropToken witnessEnv combineState).activeCells
        ((convertLatLong CLASSROOM_LATLNG.lat CLASSROOM_LATLNG.lng).i,
         (convertLatLong CLASSROOM_LATLNG.lat CLASSROOM_LATLNG.lng).j)).map
        ActiveCell.tokens) ∧
    ((mget (combineTokens witnessEnv combineState targetToken).persistentCells
        (targetToken.i, targetToken.j)).map CellState.baseTokens =
      (mget (combineTokens witnessEnv combineState targetToken).activeCells
        (targetToken.i, targetToken.j)).map ActiveCell.tokens) := by
  obtain ⟨h1, h2, h3⟩ := C5_memento_consistency witnessEnv combineState
    targetToken targetToken heldTok CLASSROOM_LATLNG rfl rfl rfl rfl
  exact ⟨rfl, rfl, rfl, rfl, h1, h2, h3⟩

/-! ### Claim C2 -/

/-- C2 — Window completeness: after a rebuild from a non-null position, the
active cell keys are exactly the square window of radius `VISIBLE_RADIUS`
around the player's grid cell, and the player's cell itself is active. -/
theorem C2_window_completeness (env : Env) (s : GameState) (pos : LatLng)
    (hp : s.controller.getCurrentPosition = some pos) :
    (∀ k : CellKey,
      k ∈ mkeys (updateVisibleCells env s).activeCells ↔
        ((convertLatLong pos.lat pos.lng).i - VISIBLE_RADIUS ≤ k.1 ∧
         k.1 ≤ (convertLatLong pos.lat pos.lng).i + VISIBLE_RADIUS ∧
         (convertLatLong pos.lat pos.lng).j - VISIBLE_RADIUS ≤ k.2 ∧
         k.2 ≤ (convertLatLong pos.lat pos.lng).j + VISIBLE_RADIUS)) ∧
    ((convertLatLong pos.lat pos.lng).i, (convertLatLong pos.lat pos.lng).j) ∈
      mkeys (updateVisibleCells env s).activeCells := by
  constructor
  · intro k
    exact updateVisibleCells_mem_mkeys env s pos hp k
  · rw [updateVisibleCells_mem_mkeys env s pos hp]
    refine ⟨?_, ?_, ?_, ?_⟩ <;>
      simp only [windowBoundsOf, VISIBLE_RADIUS] <;> omega

theorem C2_window_completeness_witness :
    baseState.controller.getCurrentPosition = some CLASSROOM_LATLNG ∧
    ((∀ k : CellKey,
      k ∈ mkeys (updateVisibleCells witnessEnv baseState).activeCells ↔
        ((convertLatLong CLASSROOM_LATLNG.lat CLASSROOM_LATLNG.lng).i -
            VISIBLE_RADIUS ≤ k.1 ∧
         k.1 ≤ (convertLatLong CLASSROOM_LATLNG.lat CLASSROOM_LATLNG.lng).i +
            VISIBLE_RADIUS ∧
         (convertLatLong CLASSROOM_LATLNG.lat CLASSROOM_LATLNG.lng).j -
            VISIBLE_RADIUS ≤ k.2 ∧
         k.2 ≤ (convertLatLong CLASSROOM_LATLNG.lat CLASSROOM_LATLNG.lng).j +
            VISIBLE_RADIUS)) ∧
    ((convertLatLong CLASSROOM_LATLNG.lat CLASSROOM_LATLNG.lng).i,
     (convertLatLong CLASSROOM_LATLNG.lat CLASSROOM_LATLNG.lng).j) ∈
      mkeys (updateVisibleCells witnessEnv baseState).activeCells) :=
  ⟨rfl, C2_window_completeness witnessEnv baseState CLASSROOM_LATLNG rfl⟩

/-! ### Claim C7 -/

theorem map_tokenObs_singleton {l : List Token} {x : Int × Int × Int}
    (h : l.map tokenObs = [x]) : ∃ t, l = [t] ∧ tokenObs t = x := by
  cases l with
  | nil => simp at h
  | cons a l' =>
    cases l' with
    | nil => exact ⟨a, rfl, by simpa using h⟩
    | cons b l'' => simp at h

/-- C7 — Spawn decision: during a rebuild, a pristine window cell holds
exactly one token — of value 2 or 4, at the cell's coordinates — iff the
deterministic hash of its key is strictly below `CACHE_SPAWN_PROBABILITY`,
and holds nothing otherwise. -/
theorem C7_spawn_decision (env : Env) (s : GameState) (pos : LatLng) (c : CellKey)
    (hp : s.controller.getCurrentPosition = some pos)
    (hmod : cellModified s.persistentCells c = false)
    (hin : (convertLatLong pos.lat pos.lng).i - VISIBLE_RADIUS ≤ c.1 ∧
           c.1 ≤ (convertLatLong pos.lat pos.lng).i + VISIBLE_RADIUS ∧
           (convertLatLong pos.lat pos.lng).j - VISIBLE_RADIUS ≤ c.2 ∧
           c.2 ≤ (convertLatLong pos.lat pos.lng).j + VISIBLE_RADIUS) :
    ∃ cd, mget (updateVisibleCells env s).activeCells c = some cd ∧
      (env.hash c < CACHE_SPAWN_PROBABILITY →
        ∃ t, cd.tokens = [t] ∧ (t.value = 2 ∨ t.value = 4) ∧
          t.i = c.1 ∧ t.j = c.2) ∧
      (¬ env.hash c < CACHE_SPAWN_PROBABILITY → cd.tokens = []) := by
  have hc : c ∈ windowCells (windowBoundsOf pos) := by
    rw [mem_windowCells]
    exact hin
  obtain ⟨cd, r, h1, h2⟩ := updateVisibleCells_obs_mem env s pos hp c hc
  rw [cellObsSpec, hmod] at h2
  simp only [Bool.false_eq_true, if_false] at h2
  refine ⟨cd, h1, ?_, ?_⟩
  · intro hh
    rw [if_pos hh] at h2
    obtain ⟨t, ht, hobs⟩ := map_tokenObs_singleton h2
    rw [tokenObs, Prod.mk.injEq, Prod.mk.injEq] at hobs
    refine ⟨t, ht, ?_, hobs.2.1, hobs.2.2⟩
    rcases hobs.1 ▸ (by split <;> simp :
        (if env.rand r < 1 / 2 then (2 : Int) else 4) = 2 ∨
        (if env.rand r < 1 / 2 then (2 : Int) else 4) = 4) with h | h
    · exact Or.inl h
    · exact Or.inr h
  · intro hh
    rw [if_neg hh] at h2
    exact List.map_eq_nil_iff.mp h2

/-- The classroom origin converts to grid cell `(0, 0)`. -/
theorem convertLatLong_classroom :
    convertLatLong CLASSROOM_LATLNG.lat CLASSROOM_LATLNG.lng = ⟨0, 0⟩ := by
  simp [convertLatLong, fsub, fdiv]

theorem C7_spawn_decision_witness :
    baseState.controller.getCurrentPosition = some CLASSROOM_LATLNG ∧
    cellModified baseState.persistentCells ((0 : Int), (0 : Int)) = false ∧
    ((convertLatLong CLASSROOM_LATLNG.lat CLASSROOM_LATLNG.lng).i -
        VISIBLE_RADIUS ≤ (0 : Int) ∧
      (0 : Int) ≤ (convertLatLong CLASSROOM_LATLNG.lat CLASSROOM_LATLNG.lng).i +
        VISIBLE_RADIUS ∧
      (convertLatLong CLASSROOM_LATLNG.lat CLASSROOM_LATLNG.lng).j -
        VISIBLE_RADIUS ≤ (0 : Int) ∧
      (0 : Int) ≤ (convertLatLong CLASSROOM_LATLNG.lat CLASSROOM_LATLNG.lng).j +
        VISIBLE_RADIUS) ∧
    (∃ cd, mget (updateVisibleCells witnessEnv baseState).activeCells
        ((0 : Int), (0 : Int)) = some cd ∧
      (witnessEnv.hash ((0 : Int), (0 : Int)) < CACHE_SPAWN_PROBABILITY →
        ∃ t, cd.tokens = [t] ∧ (t.value = 2 ∨ t.value = 4) ∧
          t.i = (0 : Int) ∧ t.j = (0 : Int)) ∧
      (¬ witnessEnv.hash ((0 : Int), (0 : Int)) < CACHE_SPAWN_PROBABILITY →
        cd.tokens = [])) := by
  refine ⟨rfl, rfl, by rw [convertLatLong_classroom]; decide, ?_⟩
  exact C7_spawn_decision witnessEnv baseState CLASSROOM_LATLNG
    ((0 : Int), (0 : Int)) rfl rfl (by rw [convertLatLong_classroom]; decide)

/-! ### Claim C8 (corrected) -/

/-- A state whose durable slot holds valid JSON that is not a
`GameState` record (e.g. the string `"{}"`), with one modified cell in the
override store. -/
def corruptState : GameState :=
  { baseState with
    persistentCells := [((2, 2), ⟨true, []⟩)],
    storage := Stored.notSnapshot }

/-- C8 counterexample: on a stored value that is valid JSON but does not
parse into a `GameSnapshot`, `loadGameState` is not a no-op returning
`false`: `persistentCells.clear()` has already run when
`savedState.persistentCells.forEach` throws, so the call ends in an
uncaught `TypeError` with the override store cleared. -/
theorem C8_corrupt_restore_counterexample :
    loadGameState witnessEnv corruptState =
      Except.error { corruptState with persistentCells := [] } ∧
    cellModified corruptState.persistentCells (2, 2) = true ∧
    cellModified ({ corruptState with persistentCells := [] }).persistentCells
      (2, 2) = false ∧
    loadGameState witnessEnv corruptState ≠
      Except.ok (corruptState, false) := by
  refine ⟨rfl, rfl, rfl, ?_⟩
  intro h
  rw [show loadGameState witnessEnv corruptState =
      Except.error { corruptState with persistentCells := [] } from rfl] at h
  exact Except.noConfusion h

/-- C8 (amended) — restoring when the stored snapshot is absent, or is a
string on which `JSON.parse` throws, returns `false` and leaves the entire
state (override store, held token, player position, movement mode)
unchanged.  (A stored value that parses as JSON but is not a
`GameSnapshot` is not detected: the code clears the override store and then
throws; see the counterexample.) -/
theorem C8_corrupt_restore_noop (env : Env) (s : GameState)
    (h : s.storage = Stored.absent ∨ s.storage = Stored.notJson) :
    loadGameState env s = Except.ok (s, false) := by
  rcases h with h | h <;> simp [loadGameState, h]

theorem C8_corrupt_restore_noop_witness :
    (baseState.storage = Stored.absent ∨ baseState.storage = Stored.notJson) ∧
    loadGameState witnessEnv baseState = Except.ok (baseState, false) :=
  ⟨Or.inl rfl, C8_corrupt_restore_noop witnessEnv baseState (Or.inl rfl)⟩

/-! ### Claim C9 (corrected) -/

/-- A geolocation position one degree north of the classroom. -/
def geoAwayPos : LatLng := ⟨CLASSROOM_LATLNG.lat + 1, CLASSROOM_LATLNG.lng⟩

/-- A session in geolocation mode away from the classroom. -/
def geoAwayState : GameState :=
  { baseState with
    controller := Controller.geoCtrl (some geoAwayPos),
    currentMovementType := MovementType.geolocation }

/-- C9 counterexample: with a geolocation controller, a confirmed
`startNewGame` leaves the movement source's position untouched (only the
presentation marker and map view move), so the player position is not
reset to the fixed origin. -/
theorem C9_reset_counterexample :
    (startNewGame witnessEnv geoAwayState true).controller.getCurrentPosition =
      some geoAwayPos ∧
    geoAwayPos ≠ CLASSROOM_LATLNG := by
  constructor
  · have h : (startNewGame witnessEnv geoAwayState true).controller =
        Controller.geoCtrl (some geoAwayPos) := by
      simp only [startNewGame, if_pos]
      rw [updateVisibleCells_controller]
      rfl
    rw [h]
    rfl
  · intro he
    have h1 : geoAwayPos.lat = CLASSROOM_LATLNG.lat := by rw [he]
    have h2 : CLASSROOM_LATLNG.lat + 1 = CLASSROOM_LATLNG.lat := h1
    linarith

/-- C9 (amended) — a confirmed `startNewGame` clears the override store
(so `cellModified` is `false` everywhere and the next rebuild regenerates
purely from the generator), clears the held token, clears the durable slot,
does not change the movement mode, resets the position to the classroom
origin *when the controller is the button controller* (a geolocation
controller keeps its position), and triggers a rebuild (in buttons mode the
active keys become exactly the window around the origin cell `(0, 0)`). -/
theorem C9_reset_semantics (env : Env) (s : GameState) :
    (startNewGame env s true).persistentCells = [] ∧
    (∀ k, cellModified (startNewGame env s true).persistentCells k = false) ∧
    (startNewGame env s true).heldToken = none ∧
    (startNewGame env s true).currentMovementType = s.currentMovementType ∧
    (startNewGame env s true).storage = Stored.absent ∧
    (∀ p, s.controller = Controller.buttonCtrl p →
      (startNewGame env s true).controller =
        Controller.buttonCtrl CLASSROOM_LATLNG ∧
      (∀ k : CellKey,
        k ∈ mkeys (startNewGame env s true).activeCells ↔
          (-VISIBLE_RADIUS ≤ k.1 ∧ k.1 ≤ VISIBLE_RADIUS ∧
           -VISIBLE_RADIUS ≤ k.2 ∧ k.2 ≤ VISIBLE_RADIUS))) ∧
    (∀ p, s.controller = Controller.geoCtrl p →
      (startNewGame env s true).controller = Controller.geoCtrl p) := by
  cases hc : s.controller with
  | buttonCtrl p0 =>
    have hred : startNewGame env s true =
        updateVisibleCells env
          { s with
            persistentCells := [],
            heldToken := none,
            controller := Controller.buttonCtrl CLASSROOM_LATLNG,
            storage := Stored.absent } := by
      simp only [startNewGame, if_pos]
      refine congrArg (updateVisibleCells env) ?_
      rw [show ({ s with persistentCells := [], heldToken := none } : GameState).controller = s.controller from rfl, hc]
    rw [hred]
    have hp : ({ s with
        persistentCells := [],
        heldToken := none,
        controller := Controller.buttonCtrl CLASSROOM_LATLNG,
        storage := Stored.absent } : GameState).controller.getCurrentPosition =
        some CLASSROOM_LATLNG := rfl
    refine ⟨by simp, ?_, by simp, by simp, by simp, ?_, ?_⟩
    · intro k
      rw [updateVisibleCells_persistentCells]
      rfl
    · intro p hp0
      refine ⟨by simp, ?_⟩
      intro k
      rw [updateVisibleCells_mem_mkeys _ _ _ hp k]
      simp only [windowBoundsOf, convertLatLong_classroom]
      omega
    · intro p hp0
      exact Controller.noConfusion hp0
  | geoCtrl p0 =>
    have hred : startNewGame env s true =
        updateVisibleCells env
          { s with
            persistentCells := [],
            heldToken := none,
            storage := Stored.absent } := by
      simp only [startNewGame, if_pos]
      refine congrArg (updateVisibleCells env) ?_
      rw [show ({ s with persistentCells := [], heldToken := none } : GameState).controller = s.controller from rfl, hc]
    rw [hred]
    refine ⟨by simp, ?_, by simp, by simp, by simp, ?_, ?_⟩
    · intro k
      rw [updateVisibleCells_persistentCells]
      rfl
    · intro p hp0
      exact Controller.noConfusion hp0
    · intro p hp0
      have hpp : p0 = p := Controller.geoCtrl.inj hp0
      subst hpp
      simp [hc]

theorem C9_reset_semantics_witness :
    (startNewGame witnessEnv baseState true).heldToken = none ∧
    (startNewGame witnessEnv baseState true).currentMovementType =
      baseState.currentMovementType ∧
    (startNewGame witnessEnv baseState true).controller =
      Controller.buttonCtrl CLASSROOM_LATLNG ∧
    cellModified (startNewGame witnessEnv baseState true).persistentCells
      (2, 2) = false := by
  obtain ⟨-, h2, h3, h4, -, h6, -⟩ := C9_reset_semantics witnessEnv baseState
  exact ⟨h3, h4, (h6 CLASSROOM_LATLNG rfl).1, h2 (2, 2)⟩

/-! ### Claim C4 (corrected) -/

theorem cellObsSpec_rand_indep (env : Env) (pm : List (CellKey × CellState))
    (c : CellKey) (r r' : Nat) (hrand : ∀ n, env.rand n = env.rand 0) :
    cellObsSpec env pm c r = cellObsSpec env pm c r' := by
  unfold cellObsSpec
  rw [hrand r, hrand r']

/-- C4 (amended) — rebuilding twice from the same position yields the same
observable active-cell contents (same keys; per cell the same token values
and coordinates) **provided the `Math.random()` value draw is fixed** (the
code re-rolls the value of every pristine spawn on each rebuild, so without
fixing the draw the values can change; see the counterexample), and, from a
state whose map handles are fresh and duplicate-free, neither rebuild
leaves duplicate presentation handles on the map. -/
theorem C4_rebuild_idempotent (env : Env) (s : GameState) (pos : LatLng)
    (hp : s.controller.getCurrentPosition = some pos)
    (hrand : ∀ n, env.rand n = env.rand 0)
    (hlay : LayersOK s) :
    (∀ k : CellKey,
      (mget (updateVisibleCells env (updateVisibleCells env s)).activeCells k).map
        (fun cd => cd.tokens.map tokenObs) =
      (mget (updateVisibleCells env s).activeCells k).map
        (fun cd => cd.tokens.map tokenObs)) ∧
    (∀ k : CellKey,
      k ∈ mkeys (updateVisibleCells env (updateVisibleCells env s)).activeCells ↔
      k ∈ mkeys (updateVisibleCells env s).activeCells) ∧
    (updateVisibleCells env s).mapLayers.Nodup ∧
    (updateVisibleCells env (updateVisibleCells env s)).mapLayers.Nodup := by
  have hp1 : (updateVisibleCells env s).controller.getCurrentPosition =
      some pos := by
    rw [updateVisibleCells_controller]
    exact hp
  have hpm : (updateVisibleCells env s).persistentCells = s.persistentCells :=
    updateVisibleCells_persistentCells env s
  refine ⟨?_, ?_, ?_, ?_⟩
  · intro k
    by_cases hk : k ∈ windowCells (windowBoundsOf pos)
    · obtain ⟨cd1, r1, h11, h12⟩ :=
        updateVisibleCells_obs_mem env s pos hp k hk
      obtain ⟨cd2, r2, h21, h22⟩ :=
        updateVisibleCells_obs_mem env (updateVisibleCells env s) pos hp1 k hk
      rw [hpm] at h22
      rw [h11, h21]
      simp only [Option.map_some']
      rw [h22, h12, cellObsSpec_rand_indep env s.persistentCells k r2 0 hrand,
        cellObsSpec_rand_indep env s.persistentCells k r1 0 hrand]
    · rw [updateVisibleCells_not_mem env s pos hp k hk,
        updateVisibleCells_not_mem env (updateVisibleCells env s) pos hp1 k hk]
  · intro k
    rw [updateVisibleCells_mem_mkeys env s pos hp k,
      updateVisibleCells_mem_mkeys env (updateVisibleCells env s) pos hp1 k]
  · exact (LayersOK_updateVisibleCells env s hlay).1
  · exact (LayersOK_updateVisibleCells env _
      (LayersOK_updateVisibleCells env s hlay)).1

/-- An environment whose `Math.random()` stream is constant. -/
def constRandEnv : Env :=
  { hash := witnessEnv.hash, rand := fun _ => 0, now := fun _ => 0 }

theorem C4_rebuild_idempotent_witness :
    baseState.controller.getCurrentPosition = some CLASSROOM_LATLNG ∧
    (∀ n, constRandEnv.rand n = constRandEnv.rand 0) ∧
    LayersOK baseState ∧
    ((updateVisibleCells constRandEnv baseState).mapLayers.Nodup ∧
     (updateVisibleCells constRandEnv
        (updateVisibleCells constRandEnv baseState)).mapLayers.Nodup) := by
  have hl : LayersOK baseState :=
    ⟨List.nodup_nil, fun h hh => absurd hh (List.not_mem_nil h)⟩
  obtain ⟨-, -, h3, h4⟩ := C4_rebuild_idempotent constRandEnv baseState
    CLASSROOM_LATLNG rfl (fun _ => rfl) hl
  exact ⟨rfl, fun _ => rfl, hl, h3, h4⟩

theorem spawnsAt_witnessEnv_ne (a : CellKey) (ha : a ≠ ((0 : Int), (0 : Int))) :
    spawnsAt witnessEnv [] a = false := by
  simp only [spawnsAt, cellModified, mget, witnessEnv, if_neg ha,
    CACHE_SPAWN_PROBABILITY_val]
  norm_num

theorem spawnsAt_witnessEnv_zero :
    spawnsAt witnessEnv [] ((0 : Int), (0 : Int)) = true := by
  simp only [spawnsAt, cellModified, mget, witnessEnv, if_pos rfl,
    CACHE_SPAWN_PROBABILITY_val]
  norm_num

theorem cellObsSpec_witnessEnv_zero :
    cellObsSpec witnessEnv [] ((0 : Int), (0 : Int)) 0 =
      [((2 : Int), (0 : Int), (0 : Int))] := by
  simp only [cellObsSpec, cellModified, mget, witnessEnv, if_pos rfl,
    CACHE_SPAWN_PROBABILITY_val]
  norm_num

theorem cellObsSpec_witnessEnv_one :
    cellObsSpec witnessEnv [] ((0 : Int), (0 : Int)) (1 + 0) =
      [((4 : Int), (0 : Int), (0 : Int))] := by
  simp only [cellObsSpec, cellModified, mget, witnessEnv, if_pos rfl,
    CACHE_SPAWN_PROBABILITY_val]
  norm_num

/-- C4 counterexample: from a fresh session at the classroom, with an
environment in which exactly cell `(0, 0)` clears the spawn probability and
the first `Math.random()` draw is below one half while the second is not,
the first rebuild leaves a value-2 token at `(0, 0)` and an immediately
following rebuild (same position) replaces it by a value-4 token: the
active-cell contents are not the same, refuting the claim as stated. -/
theorem C4_rebuild_counterexample :
    (mget (updateVisibleCells witnessEnv
        (updateVisibleCells witnessEnv baseState)).activeCells
        ((0 : Int), (0 : Int))).map (fun cd => cd.tokens.map tokenObs) ≠
    (mget (updateVisibleCells witnessEnv baseState).activeCells
        ((0 : Int), (0 : Int))).map (fun cd => cd.tokens.map tokenObs) := by
  have hc : ((0 : Int), (0 : Int)) ∈ windowCells (windowBoundsOf CLASSROOM_LATLNG) := by
    rw [mem_windowCells]
    rw [windowBoundsOf, convertLatLong_classroom]
    decide
  obtain ⟨L₁, L₂, hL⟩ := List.append_of_mem hc
  have hnd := windowCells_nodup (windowBoundsOf CLASSROOM_LATLNG)
  rw [hL, List.nodup_append] at hnd
  obtain ⟨hnd1, hnd2, hdisj⟩ := hnd
  have h02 : ((0 : Int), (0 : Int)) ∉ L₂ := (List.nodup_cons.mp hnd2).1
  have h01 : ((0 : Int), (0 : Int)) ∉ L₁ :=
    fun h => hdisj h (List.mem_cons_self _ _)
  have count1 : L₁.countP (spawnsAt witnessEnv []) = 0 := by
    rw [List.countP_eq_zero]
    intro a ha
    rw [spawnsAt_witnessEnv_ne a (fun he => h01 (he ▸ ha))]
    simp
  have count2 : L₂.countP (spawnsAt witnessEnv []) = 0 := by
    rw [List.countP_eq_zero]
    intro a ha
    rw [spawnsAt_witnessEnv_ne a (fun he => h02 (he ▸ ha))]
    simp
  have countAll : (windowCells (windowBoundsOf CLASSROOM_LATLNG)).countP
      (spawnsAt witnessEnv []) = 1 := by
    rw [hL, List.countP_append, List.countP_cons, count1, count2,
      spawnsAt_witnessEnv_zero]
    rfl
  obtain ⟨cd1, e1, f1⟩ := updateVisibleCells_obs_split witnessEnv baseState
    CLASSROOM_LATLNG rfl L₁ L₂ ((0 : Int), (0 : Int)) hL h02
  have f1' : cd1.tokens.map tokenObs = [((2 : Int), (0 : Int), (0 : Int))] := by
    rw [f1, show baseState.persistentCells = [] from rfl, count1]
    exact cellObsSpec_witnessEnv_zero
  have hp1 : (updateVisibleCells witnessEnv baseState).controller.getCurrentPosition =
      some CLASSROOM_LATLNG := by
    rw [updateVisibleCells_controller]
    rfl
  have hpm1 : (updateVisibleCells witnessEnv baseState).persistentCells = [] := by
    rw [updateVisibleCells_persistentCells]
    rfl
  have hr1 : (updateVisibleCells witnessEnv baseState).randCtr = 1 := by
    rw [updateVisibleCells_randCtr witnessEnv baseState CLASSROOM_LATLNG rfl,
      show baseState.persistentCells = [] from rfl, countAll]
    rfl
  obtain ⟨cd2, e2, f2⟩ := updateVisibleCells_obs_split witnessEnv
    (updateVisibleCells witnessEnv baseState) CLASSROOM_LATLNG hp1 L₁ L₂
    ((0 : Int), (0 : Int)) hL h02
  have f2' : cd2.tokens.map tokenObs = [((4 : Int), (0 : Int), (0 : Int))] := by
    rw [f2, hpm1, hr1, count1]
    exact cellObsSpec_witnessEnv_one
  rw [e1, e2]
  simp only [Option.map_some']
  rw [f1', f2']
  intro h
  have := Option.some.inj h
  simp at this

end WorldOfBits
